import Mathlib

/-!
# Verification of the garage regressor base classes and discrete MLP Q-function

Shallow embedding of `src/garage/tf/regressors/base2.py` and
`src/garage/tf/q_functions/discrete_mlp_q_function.py`.

Machine values held in tensors are modelled as `Int`, parameters (TensorFlow
variables) by identity as `Nat`, and numpy/TensorFlow dtypes as abstract codes.
The ambient TensorFlow world (default session, graph node counter) is bundled
with the regressor object's attributes into one state record `RState`, and
every method of `Regressor2` is translated into a state-passing function.
Fallible calls (session reads, numpy reshape) return `Except PyError`.
-/

/-- Abstract numpy dtype code (for example `float32`). -/
abbrev NpDtype := Nat

/-- The numpy float32 dtype code. -/
def float32 : NpDtype := 0

/-- A TensorFlow dtype: a base numpy dtype possibly wrapped as a reference
dtype (`tf.float32_ref`); `base_dtype` strips the reference wrapper. -/
structure TfDtype where
  base : NpDtype
  ref : Bool
deriving DecidableEq

/-- A TensorFlow variable (parameter), identified by graph identity. -/
abbrev Param := Nat

/-- A tensor shape: a list of dimension sizes. -/
abbrev Shape := List Nat

/-- A numpy array: dtype, shape, and the row-major flattened data. -/
structure NpArr where
  dtype : NpDtype
  shape : Shape
  data : List Int
deriving DecidableEq

/-- A tag set, the `**tags` keyword arguments: an association of tag names
to boolean values with distinct keys (a Python dict in insertion order). -/
abbrev Tags := List (String × Bool)

/-- Association-list lookup, the model of Python dict access. -/
def lookupA {κ β : Type} [DecidableEq κ] (k : κ) : List (κ × β) → Option β
  | [] => none
  | (k₂, v) :: rest => if k = k₂ then some v else lookupA k rest

@[simp] theorem lookupA_nil {κ β : Type} [DecidableEq κ] (k : κ) :
    lookupA (β := β) k [] = none := rfl

theorem lookupA_cons {κ β : Type} [DecidableEq κ] (k k₂ : κ) (v : β) (l : List (κ × β)) :
    lookupA k ((k₂, v) :: l) = if k = k₂ then some v else lookupA k l := rfl

@[simp] theorem lookupA_cons_self {κ β : Type} [DecidableEq κ] (k : κ) (v : β)
    (l : List (κ × β)) : lookupA k ((k, v) :: l) = some v := by
  simp [lookupA_cons]

/-- The ordering on tag items used by `sorted(tags.items(), key=lambda x: x[0])`:
compare by the tag name. -/
def tagLe (a b : String × Bool) : Prop := a.1 ≤ b.1

instance : DecidableRel tagLe := fun a b =>
  inferInstanceAs (Decidable (a.1 ≤ b.1))

instance : IsTotal (String × Bool) tagLe :=
  ⟨fun a b => le_total a.1 b.1⟩

instance : IsTrans (String × Bool) tagLe :=
  ⟨fun _ _ _ h₁ h₂ => le_trans h₁ h₂⟩

/-- `tuple(sorted(list(tags.items()), key=lambda x: x[0]))`: the cache key is
the tag bindings sorted by tag name. -/
def sortTags (tags : Tags) : Tags := List.insertionSort tagLe tags

/-- Two lists of tag items that are sorted by key, are permutations of each
other, and have no duplicate key are equal. -/
theorem sorted_nodupkeys_perm_eq : ∀ {l₁ l₂ : Tags}, l₁.Perm l₂ →
    (l₁.map Prod.fst).Nodup → l₁.Sorted tagLe → l₂.Sorted tagLe → l₁ = l₂ := by
  intro l₁
  induction l₁ with
  | nil => intro l₂ hp _ _ _; exact (List.Perm.nil_eq hp).symm ▸ rfl
  | cons a l ih =>
    intro l₂ hp hnd hs₁ hs₂
    cases l₂ with
    | nil => exact absurd hp.symm (by simp)
    | cons b l₂t =>
      have hab : a = b := by
        have ha : a ∈ b :: l₂t := hp.mem_iff.mp (List.mem_cons_self a l)
        have hb : b ∈ a :: l := hp.symm.mem_iff.mp (List.mem_cons_self b l₂t)
        rcases List.mem_cons.mp ha with h | ha2
        · exact h
        rcases List.mem_cons.mp hb with h | hb2
        · exact h.symm
        -- a sits in the tail of l₂ and b in the tail of l₁: keys are equal,
        -- contradicting key nodup of l₁.
        have h₁ : tagLe a b := (List.sorted_cons.mp hs₁).1 b hb2
        have h₂ : tagLe b a := (List.sorted_cons.mp hs₂).1 a ha2
        have hk : a.1 = b.1 := le_antisymm h₁ h₂
        have : a.1 ∉ (l.map Prod.fst) := (List.nodup_cons.mp hnd).1
        exact absurd (hk ▸ List.mem_map_of_mem Prod.fst hb2) this
      subst hab
      have hp2 : l.Perm l₂t := List.Perm.cons_inv hp
      have := ih hp2 (List.nodup_cons.mp hnd).2 (List.sorted_cons.mp hs₁).2
        (List.sorted_cons.mp hs₂).2
      rw [this]

/-- Sorting tag items by key is canonical: any keyword order of the same
bindings yields the same sorted tuple. -/
theorem sortTags_eq_of_perm {t₁ t₂ : Tags} (hp : t₁.Perm t₂)
    (hnd : (t₁.map Prod.fst).Nodup) : sortTags t₁ = sortTags t₂ := by
  have p₁ : (sortTags t₁).Perm t₁ := List.perm_insertionSort tagLe t₁
  have p₂ : (sortTags t₂).Perm t₂ := List.perm_insertionSort tagLe t₂
  exact sorted_nodupkeys_perm_eq (p₁.trans (hp.trans p₂.symm))
    ((p₁.map Prod.fst).nodup_iff.mpr hnd)
    (List.sorted_insertionSort tagLe t₁) (List.sorted_insertionSort tagLe t₂)

/-- Model of `tags.pop(k, ...)` on the dict: remove the binding named `k`. -/
def eraseKey (k : String) : Tags → Tags
  | [] => []
  | (k₂, v) :: rest => if k₂ = k then eraseKey k rest else (k₂, v) :: eraseKey k rest

theorem eraseKey_of_lookup_none {k : String} : ∀ {l : Tags},
    lookupA k l = none → eraseKey k l = l := by
  intro l
  induction l with
  | nil => intro _; rfl
  | cons a rest ih =>
    intro h
    obtain ⟨k₂, v⟩ := a
    rw [lookupA_cons] at h
    by_cases hk : k = k₂
    · simp [hk] at h
    · simp only [hk, if_false] at h
      simp [eraseKey, Ne.symm hk, ih h]

theorem lookupA_eraseKey_self (k : String) : ∀ (l : Tags),
    lookupA k (eraseKey k l) = none := by
  intro l
  induction l with
  | nil => rfl
  | cons a rest ih =>
    obtain ⟨k₂, v⟩ := a
    by_cases hk : k₂ = k
    · simp [eraseKey, hk, ih]
    · simp [eraseKey, hk, lookupA_cons, Ne.symm hk, ih]

/-- Python errors surfaced by the external frameworks. -/
inductive PyError where
  /-- `raise NotImplementedError` from an abstract method. -/
  | notImplementedError
  /-- `tf.get_default_session()` returned `None` and was used. -/
  | noDefaultSession
  /-- numpy `reshape` size mismatch (`ValueError`). -/
  | valueError
deriving DecidableEq

/-- Modelled from the spec: `flatten_tensors` (from `garage.misc.tensor_utils`,
which is not under `src/`) concatenates the tensors' flattened values into a
single vector. -/
def flatten_tensors (tensors : List NpArr) : List Int :=
  (tensors.map NpArr.data).flatten

/-- Modelled from the spec: numpy `reshape` of a flat chunk to a target shape;
raises `ValueError` when the number of elements does not match. -/
def reshapeChunk (chunk : List Int) (s : Shape) : Except PyError (Shape × List Int) :=
  if chunk.length = s.prod then .ok (s, chunk) else .error .valueError

/-- Modelled from the spec: `np.split` at the cumulative sizes of all but the
last shape. Every chunk except the last has exactly the size of its shape
(or whatever remains); the last chunk absorbs the remainder. -/
def splitChunks (flat : List Int) : List Shape → List (List Int)
  | [] => []
  | [_] => [flat]
  | s :: rest => flat.take s.prod :: splitChunks (flat.drop s.prod) rest

/-- The list comprehension `[np.reshape(pair[0], pair[1]) for pair in ...]`:
reshape each chunk left to right, raising the first reshape error. -/
def reshapeAll : List (List Int × Shape) → Except PyError (List (Shape × List Int))
  | [] => .ok []
  | cs :: rest =>
      match reshapeChunk cs.1 cs.2 with
      | .error e => .error e
      | .ok v =>
          match reshapeAll rest with
          | .error e => .error e
          | .ok vs => .ok (v :: vs)

/-- Modelled from the spec: `unflatten_tensors` (from
`garage.misc.tensor_utils`, not under `src/`) splits a flat vector at the
cumulative shape sizes and reshapes each chunk to its shape. -/
def unflatten_tensors (flat : List Int) (shapes : List Shape) :
    Except PyError (List (Shape × List Int)) :=
  reshapeAll ((splitChunks flat shapes).zip shapes)

/-- The combined state: the mutable attributes a `Regressor2` object holds
(its constructor fields and the five caches) together with the ambient
TensorFlow world it acts on (the default session's variable store, the graph
node counter for freshly created placeholders and assign operations) and
observation counters (how often `get_params_internal` ran, how often the
session was read). -/
structure RState where
  input_shape : Shape
  output_dim : Nat
  rname : String
  cachedParams : List (Tags × List Param)
  cachedParamDtypes : List (Tags × List NpDtype)
  cachedParamShapes : List (Tags × List Shape)
  cachedAssignOps : List (Param × Nat)
  cachedAssignPlaceholders : List (Param × (Nat × NpDtype))
  session : Option (Param → NpArr)
  nextNode : Nat
  gpiCalls : Nat
  sessionReads : Nat

/-- `Regressor2.__init__`: store the constructor arguments and initialize the
five caches to empty dicts, in an ambient world with the given session and
node counter. -/
def Regressor2.init (input_shape : Shape) (output_dim : Nat) (name : String)
    (session : Option (Param → NpArr)) (nextNode : Nat) : RState :=
  { input_shape := input_shape
    output_dim := output_dim
    rname := name
    cachedParams := []
    cachedParamDtypes := []
    cachedParamShapes := []
    cachedAssignOps := []
    cachedAssignPlaceholders := []
    session := session
    nextNode := nextNode
    gpiCalls := 0
    sessionReads := 0 }

/-- `Regressor2.get_params`: look up the sorted tag tuple in `_cached_params`;
on a miss call `get_params_internal` (the subclass implementation `gpi`,
counted in `gpiCalls`) and cache the result. -/
def get_params (gpi : Tags → List Param) (self : RState) (tags : Tags) :
    List Param × RState :=
  let tag_tuple := sortTags tags
  match lookupA tag_tuple self.cachedParams with
  | some ps => (ps, self)
  | none =>
      (gpi tags,
        { self with
            cachedParams := (tag_tuple, gpi tags) :: self.cachedParams
            gpiCalls := self.gpiCalls + 1 })

/-- `tf.get_default_session().run(params)`: read the current value of each
parameter from the default session; an absent default session raises. -/
def sessionRunRead (self : RState) (params : List Param) :
    Except PyError (List NpArr × RState) :=
  match self.session with
  | none => .error .noDefaultSession
  | some vals =>
      .ok (params.map vals, { self with sessionReads := self.sessionReads + 1 })

/-- `Regressor2.get_param_dtypes`: cached under the sorted tag tuple; on a
miss read the parameter values from the session and record their dtypes. -/
def get_param_dtypes (gpi : Tags → List Param) (self : RState) (tags : Tags) :
    Except PyError (List NpDtype × RState) :=
  let tag_tuple := sortTags tags
  match lookupA tag_tuple self.cachedParamDtypes with
  | some ds => .ok (ds, self)
  | none =>
      let pr := get_params gpi self tags
      match sessionRunRead pr.2 pr.1 with
      | .error e => .error e
      | .ok (pvs, self₂) =>
          .ok (pvs.map NpArr.dtype,
            { self₂ with
                cachedParamDtypes :=
                  (tag_tuple, pvs.map NpArr.dtype) :: self₂.cachedParamDtypes })

/-- `Regressor2.get_param_shapes`: cached under the sorted tag tuple; on a
miss read the parameter values from the session and record their shapes. -/
def get_param_shapes (gpi : Tags → List Param) (self : RState) (tags : Tags) :
    Except PyError (List Shape × RState) :=
  let tag_tuple := sortTags tags
  match lookupA tag_tuple self.cachedParamShapes with
  | some ss => .ok (ss, self)
  | none =>
      let pr := get_params gpi self tags
      match sessionRunRead pr.2 pr.1 with
      | .error e => .error e
      | .ok (pvs, self₂) =>
          .ok (pvs.map NpArr.shape,
            { self₂ with
                cachedParamShapes :=
                  (tag_tuple, pvs.map NpArr.shape) :: self₂.cachedParamShapes })

/-- `Regressor2.get_param_values`: read the tagged parameters' current values
from the session and flatten them into a single vector. -/
def get_param_values (gpi : Tags → List Param) (self : RState) (tags : Tags) :
    Except PyError (List Int × RState) :=
  let pr := get_params gpi self tags
  match sessionRunRead pr.2 pr.1 with
  | .error e => .error e
  | .ok (pvs, self₂) => .ok (flatten_tensors pvs, self₂)

/-- `value.astype(dtype)`: cast an unflattened chunk to a numpy dtype. -/
def astype (dt : NpDtype) (v : Shape × List Int) : NpArr :=
  ⟨dt, v.1, v.2⟩

/-- The `for param, dtype, value in zip(...)` loop body of
`set_param_values`: on a parameter not yet in `_cached_assign_ops`, create a
fresh placeholder with the parameter's base dtype and a fresh assign
operation and cache both under the parameter; with `debug` print the
parameter; collect the `(op, feed)` work as `(param, value.astype(dtype))`
pairs in loop order, together with the list of parameters printed when
`debug` is set. -/
def assignLoop (vdt : Param → TfDtype) (debug : Bool) :
    List ((Param × NpDtype) × (Shape × List Int)) → RState →
      RState × List (Param × NpArr) × List Param
  | [], self => (self, [], [])
  | ((p, dt), v) :: rest, self =>
      let self₁ :=
        if (lookupA p self.cachedAssignOps).isNone then
          { self with
              cachedAssignPlaceholders :=
                (p, (self.nextNode, (vdt p).base)) :: self.cachedAssignPlaceholders
              cachedAssignOps := (p, self.nextNode + 1) :: self.cachedAssignOps
              nextNode := self.nextNode + 2 }
        else self
      let r := assignLoop vdt debug rest self₁
      (r.1, (p, astype dt v) :: r.2.1, if debug then p :: r.2.2 else r.2.2)

/-- `tf.get_default_session().run(ops, feed_dict=feed_dict)` for the collected
assign operations: each operation writes the value fed to its parameter's
placeholder into that parameter; feeding the same placeholder twice keeps the
last value, which sequential updates realize. -/
def sessionRunAssign (self : RState) (pairs : List (Param × NpArr)) :
    Except PyError (Unit × RState) :=
  match self.session with
  | none => .error .noDefaultSession
  | some vals =>
      .ok ((),
        { self with
            session :=
              some (pairs.foldl (fun f pa => Function.update f pa.1 pa.2) vals) })

/-- `Regressor2.set_param_values`: pop the `debug` tag, unflatten the given
vector according to the tagged parameters' (cached) shapes, and assign each
piece to the corresponding parameter through cached assign operations and
placeholders (`vdt` gives each TensorFlow variable's static dtype, used for
`param.dtype.base_dtype` when creating a placeholder; the surrounding
`tf.name_scope` only affects graph naming and is not modelled). The second
component of the result is the list of parameters printed by the loop, which
is the only place the popped `debug` tag is used. -/
def set_param_values (vdt : Param → TfDtype) (gpi : Tags → List Param)
    (self : RState) (flattened_params : List Int) (name : Option String)
    (tags : Tags) : Except PyError (Unit × RState) × List Param :=
  let debug := (lookupA "debug" tags).getD false
  let tags := eraseKey "debug" tags
  match get_param_shapes gpi self tags with
  | .error e => (.error e, [])
  | .ok (shapes, self₁) =>
      match unflatten_tensors flattened_params shapes with
      | .error e => (.error e, [])
      | .ok param_values =>
          let pr := get_params gpi self₁ tags
          match get_param_dtypes gpi pr.2 tags with
          | .error e => (.error e, [])
          | .ok (dtypes, self₃) =>
              let r := assignLoop vdt debug ((pr.1.zip dtypes).zip param_values) self₃
              (sessionRunAssign r.1 r.2.1, r.2.2)

/-- `Regressor2.__getstate__` / `__setstate__` on the operational state: the
snapshot keeps the constructor attributes; restoring reinitializes the five
caches to empty dicts (the ambient world is not part of the object). -/
def regressorGetstate (self : RState) : Shape × Nat × String :=
  (self.input_shape, self.output_dim, self.rname)

/-- `Regressor2.__setstate__` on the operational state: every cache is reset
to an empty dict and the snapshot attributes are restored. -/
def regressorSetstate (self : RState) (snap : Shape × Nat × String) : RState :=
  { self with
      input_shape := snap.1
      output_dim := snap.2.1
      rname := snap.2.2
      cachedParams := []
      cachedParamDtypes := []
      cachedParamShapes := []
      cachedAssignOps := []
      cachedAssignPlaceholders := [] }

/-! ## Characterization lemmas for the parameter machinery -/

theorem zip_self_map {α β : Type} (h : α → β) : ∀ l : List α,
    l.zip (l.map h) = l.map (fun a => (a, h a))
  | [] => rfl
  | a :: l => by simp [zip_self_map h l]

theorem get_params_hit {gpi : Tags → List Param} {st : RState} {tags : Tags}
    {ps : List Param} (h : lookupA (sortTags tags) st.cachedParams = some ps) :
    get_params gpi st tags = (ps, st) := by
  simp only [get_params]
  rw [h]

theorem get_params_spec (gpi : Tags → List Param) (st : RState) (tags : Tags) :
    ∃ c g, (get_params gpi st tags).2 = { st with cachedParams := c, gpiCalls := g } ∧
      lookupA (sortTags tags) c = some (get_params gpi st tags).1 := by
  simp only [get_params]
  cases h : lookupA (sortTags tags) st.cachedParams with
  | some ps => exact ⟨st.cachedParams, st.gpiCalls, rfl, h⟩
  | none =>
      exact ⟨(sortTags tags, gpi tags) :: st.cachedParams, st.gpiCalls + 1, rfl,
        lookupA_cons_self _ _ _⟩

theorem sessionRunRead_some {st : RState} {vals : Param → NpArr}
    (h : st.session = some vals) (params : List Param) :
    sessionRunRead st params =
      .ok (params.map vals, { st with sessionReads := st.sessionReads + 1 }) := by
  simp only [sessionRunRead]
  rw [h]

theorem sessionRunRead_none {st : RState} (h : st.session = none)
    (params : List Param) : sessionRunRead st params = .error .noDefaultSession := by
  simp only [sessionRunRead]
  rw [h]

theorem get_param_values_eq {gpi : Tags → List Param} {st : RState} {tags : Tags}
    {vals : Param → NpArr} (h : ((get_params gpi st tags).2).session = some vals) :
    get_param_values gpi st tags =
      .ok (flatten_tensors (((get_params gpi st tags).1).map vals),
        { (get_params gpi st tags).2 with
            sessionReads := ((get_params gpi st tags).2).sessionReads + 1 }) := by
  simp only [get_param_values]
  rw [sessionRunRead_some h]

theorem get_param_dtypes_hit {gpi : Tags → List Param} {st : RState} {tags : Tags}
    {ds : List NpDtype} (h : lookupA (sortTags tags) st.cachedParamDtypes = some ds) :
    get_param_dtypes gpi st tags = .ok (ds, st) := by
  simp only [get_param_dtypes]
  rw [h]

theorem get_param_dtypes_miss {gpi : Tags → List Param} {st : RState} {tags : Tags}
    {vals : Param → NpArr}
    (hmiss : lookupA (sortTags tags) st.cachedParamDtypes = none)
    (hsess : ((get_params gpi st tags).2).session = some vals) :
    get_param_dtypes gpi st tags =
      .ok ((((get_params gpi st tags).1).map vals).map NpArr.dtype,
        { (get_params gpi st tags).2 with
            sessionReads := ((get_params gpi st tags).2).sessionReads + 1
            cachedParamDtypes :=
              (sortTags tags, (((get_params gpi st tags).1).map vals).map NpArr.dtype)
                :: ((get_params gpi st tags).2).cachedParamDtypes }) := by
  simp only [get_param_dtypes]
  rw [hmiss, sessionRunRead_some hsess]

theorem get_param_dtypes_none_session {gpi : Tags → List Param} {st : RState}
    {tags : Tags} (hmiss : lookupA (sortTags tags) st.cachedParamDtypes = none)
    (hsess : ((get_params gpi st tags).2).session = none) :
    get_param_dtypes gpi st tags = .error .noDefaultSession := by
  simp only [get_param_dtypes]
  rw [hmiss, sessionRunRead_none hsess]

theorem get_param_shapes_hit {gpi : Tags → List Param} {st : RState} {tags : Tags}
    {ss : List Shape} (h : lookupA (sortTags tags) st.cachedParamShapes = some ss) :
    get_param_shapes gpi st tags = .ok (ss, st) := by
  simp only [get_param_shapes]
  rw [h]

theorem get_param_shapes_miss {gpi : Tags → List Param} {st : RState} {tags : Tags}
    {vals : Param → NpArr}
    (hmiss : lookupA (sortTags tags) st.cachedParamShapes = none)
    (hsess : ((get_params gpi st tags).2).session = some vals) :
    get_param_shapes gpi st tags =
      .ok ((((get_params gpi st tags).1).map vals).map NpArr.shape,
        { (get_params gpi st tags).2 with
            sessionReads := ((get_params gpi st tags).2).sessionReads + 1
            cachedParamShapes :=
              (sortTags tags, (((get_params gpi st tags).1).map vals).map NpArr.shape)
                :: ((get_params gpi st tags).2).cachedParamShapes }) := by
  simp only [get_param_shapes]
  rw [hmiss, sessionRunRead_some hsess]

theorem get_param_shapes_none_session {gpi : Tags → List Param} {st : RState}
    {tags : Tags} (hmiss : lookupA (sortTags tags) st.cachedParamShapes = none)
    (hsess : ((get_params gpi st tags).2).session = none) :
    get_param_shapes gpi st tags = .error .noDefaultSession := by
  simp only [get_param_shapes]
  rw [hmiss, sessionRunRead_none hsess]

theorem assignLoop_pairs (vdt : Param → TfDtype) (debug : Bool) :
    ∀ (l : List ((Param × NpDtype) × (Shape × List Int))) (st : RState),
      (assignLoop vdt debug l st).2.1 = l.map (fun x => (x.1.1, astype x.1.2 x.2))
  | [], _ => rfl
  | ((p, dt), v) :: rest, st => by
      simp only [assignLoop, List.map]
      rw [assignLoop_pairs vdt debug rest]

theorem assignLoop_session (vdt : Param → TfDtype) (debug : Bool) :
    ∀ (l : List ((Param × NpDtype) × (Shape × List Int))) (st : RState),
      ((assignLoop vdt debug l st).1).session = st.session
  | [], _ => rfl
  | ((p, dt), v) :: rest, st => by
      simp only [assignLoop]
      rw [assignLoop_session vdt debug rest]
      split <;> rfl

theorem assignLoop_debug_irrel (vdt : Param → TfDtype) (d₁ d₂ : Bool) :
    ∀ (l : List ((Param × NpDtype) × (Shape × List Int))) (st : RState),
      (assignLoop vdt d₁ l st).1 = (assignLoop vdt d₂ l st).1 ∧
      (assignLoop vdt d₁ l st).2.1 = (assignLoop vdt d₂ l st).2.1
  | [], _ => ⟨rfl, rfl⟩
  | ((p, dt), v) :: rest, st => by
      simp only [assignLoop]
      exact ⟨(assignLoop_debug_irrel vdt d₁ d₂ rest _).1,
        by rw [(assignLoop_debug_irrel vdt d₁ d₂ rest _).2]⟩

theorem assignLoop_prints_false (vdt : Param → TfDtype) :
    ∀ (l : List ((Param × NpDtype) × (Shape × List Int))) (st : RState),
      (assignLoop vdt false l st).2.2 = []
  | [], _ => rfl
  | ((p, dt), v) :: rest, st => by
      simp only [assignLoop, if_neg]
      exact assignLoop_prints_false vdt rest _

theorem sessionRunAssign_some {st : RState} {vals : Param → NpArr}
    (h : st.session = some vals) (pairs : List (Param × NpArr)) :
    sessionRunAssign st pairs =
      .ok ((),
        { st with
            session :=
              some (pairs.foldl (fun f pa => Function.update f pa.1 pa.2) vals) }) := by
  simp only [sessionRunAssign]
  rw [h]

theorem sessionRunAssign_none {st : RState} (h : st.session = none)
    (pairs : List (Param × NpArr)) :
    sessionRunAssign st pairs = .error .noDefaultSession := by
  simp only [sessionRunAssign]
  rw [h]

theorem foldl_update_self (vals : Param → NpArr) : ∀ ps : List Param,
    (ps.map (fun p => (p, vals p))).foldl
      (fun f pa => Function.update f pa.1 pa.2) vals = vals
  | [] => rfl
  | p :: ps => by
      simp only [List.map, List.foldl]
      rw [Function.update_eq_self, foldl_update_self vals ps]

/-- Unflattening the flattened values of well-formed tensors by their shapes
recovers exactly the tensors' shape and data pairs. -/
theorem unflatten_flatten : ∀ (l : List NpArr),
    (∀ a ∈ l, a.data.length = a.shape.prod) →
    unflatten_tensors (flatten_tensors l) (l.map NpArr.shape) =
      .ok (l.map (fun a => (a.shape, a.data))) := by
  intro l
  induction l with
  | nil => intro _; rfl
  | cons a rest ih =>
      intro hwf
      have ha : a.data.length = a.shape.prod := hwf a (List.mem_cons_self a rest)
      cases rest with
      | nil =>
          simp only [unflatten_tensors, flatten_tensors, List.map, splitChunks,
            List.flatten, List.append_nil, List.zip, List.zipWith]
          simp [reshapeAll, reshapeChunk, ha]
      | cons b rest₂ =>
          have hstep : flatten_tensors (a :: b :: rest₂) =
              a.data ++ flatten_tensors (b :: rest₂) := by
            simp [flatten_tensors]
          have htake : (flatten_tensors (a :: b :: rest₂)).take a.shape.prod = a.data := by
            rw [hstep, ← ha, List.take_left]
          have hdrop : (flatten_tensors (a :: b :: rest₂)).drop a.shape.prod =
              flatten_tensors (b :: rest₂) := by
            rw [hstep, ← ha, List.drop_left]
          have hrest := ih (fun x hx => hwf x (List.mem_cons_of_mem a hx))
          simp only [unflatten_tensors, List.map, splitChunks] at hrest ⊢
          rw [htake, hdrop]
          simp only [List.zip] at hrest
          simp only [List.zip, List.zipWith, reshapeAll]
          simp only [reshapeChunk, ha, if_pos]
          rw [hrest]

theorem get_params_session (gpi : Tags → List Param) (st : RState) (tags : Tags) :
    ((get_params gpi st tags).2).session = st.session := by
  simp only [get_params]
  cases lookupA (sortTags tags) st.cachedParams <;> rfl

theorem get_params_shapesCache (gpi : Tags → List Param) (st : RState) (tags : Tags) :
    ((get_params gpi st tags).2).cachedParamShapes = st.cachedParamShapes := by
  simp only [get_params]
  cases lookupA (sortTags tags) st.cachedParams <;> rfl

theorem get_params_dtypesCache (gpi : Tags → List Param) (st : RState) (tags : Tags) :
    ((get_params gpi st tags).2).cachedParamDtypes = st.cachedParamDtypes := by
  simp only [get_params]
  cases lookupA (sortTags tags) st.cachedParams <;> rfl

theorem get_params_assignOps (gpi : Tags → List Param) (st : RState) (tags : Tags) :
    ((get_params gpi st tags).2).cachedAssignOps = st.cachedAssignOps := by
  simp only [get_params]
  cases lookupA (sortTags tags) st.cachedParams <;> rfl

theorem get_params_assignPlaceholders (gpi : Tags → List Param) (st : RState) (tags : Tags) :
    ((get_params gpi st tags).2).cachedAssignPlaceholders = st.cachedAssignPlaceholders := by
  simp only [get_params]
  cases lookupA (sortTags tags) st.cachedParams <;> rfl

theorem get_params_nextNode (gpi : Tags → List Param) (st : RState) (tags : Tags) :
    ((get_params gpi st tags).2).nextNode = st.nextNode := by
  simp only [get_params]
  cases lookupA (sortTags tags) st.cachedParams <;> rfl

theorem get_params_cached (gpi : Tags → List Param) (st : RState) (tags : Tags) :
    lookupA (sortTags tags) ((get_params gpi st tags).2).cachedParams =
      some ((get_params gpi st tags).1) := by
  simp only [get_params]
  cases h : lookupA (sortTags tags) st.cachedParams with
  | some ps => exact h
  | none => exact lookupA_cons_self _ _ _

theorem foldl_update_astype (vals : Param → NpArr) (ps : List Param) :
    (ps.map (fun p =>
        (p, astype ((vals p).dtype) (((vals p).shape), ((vals p).data))))).foldl
      (fun f pa => Function.update f pa.1 pa.2) vals = vals :=
  foldl_update_self vals ps

/-- On a state whose parameter cache holds `ps` for the tag tuple, whose
session holds `vals`, and whose shape cache is consistent (any cached entry
for the tag tuple equals the current shapes of `ps`), `get_param_shapes`
returns the current shapes, with the parameter cache entry, the session and
the dtype cache carried over unchanged; this covers both a warm and a cold
shape cache. -/
theorem get_param_shapes_consistent {gpi : Tags → List Param} {st : RState}
    {tags : Tags} {vals : Param → NpArr} {ps : List Param}
    (hc : lookupA (sortTags tags) st.cachedParams = some ps)
    (hsess : st.session = some vals)
    (hcons : ∀ ss, lookupA (sortTags tags) st.cachedParamShapes = some ss →
      ss = (ps.map vals).map NpArr.shape) :
    ∃ stB, get_param_shapes gpi st tags =
        .ok ((ps.map vals).map NpArr.shape, stB) ∧
      lookupA (sortTags tags) stB.cachedParams = some ps ∧
      stB.session = some vals ∧
      stB.cachedParamDtypes = st.cachedParamDtypes := by
  cases hls : lookupA (sortTags tags) st.cachedParamShapes with
  | some ss =>
      have hss := hcons ss hls
      subst hss
      exact ⟨st, get_param_shapes_hit hls, hc, hsess, rfl⟩
  | none =>
      have hit := @get_params_hit gpi st tags ps hc
      have h := @get_param_shapes_miss gpi st tags vals hls
        (by rw [hit]; exact hsess)
      rw [hit] at h
      exact ⟨_, h, hc, hsess, rfl⟩

/-- The dtype analogue of `get_param_shapes_consistent`. -/
theorem get_param_dtypes_consistent {gpi : Tags → List Param} {st : RState}
    {tags : Tags} {vals : Param → NpArr} {ps : List Param}
    (hc : lookupA (sortTags tags) st.cachedParams = some ps)
    (hsess : st.session = some vals)
    (hcons : ∀ ds, lookupA (sortTags tags) st.cachedParamDtypes = some ds →
      ds = (ps.map vals).map NpArr.dtype) :
    ∃ stC, get_param_dtypes gpi st tags =
        .ok ((ps.map vals).map NpArr.dtype, stC) ∧
      stC.session = some vals := by
  cases hld : lookupA (sortTags tags) st.cachedParamDtypes with
  | some ds =>
      have hds := hcons ds hld
      subst hds
      exact ⟨st, get_param_dtypes_hit hld, hsess⟩
  | none =>
      have hit := @get_params_hit gpi st tags ps hc
      have h := @get_param_dtypes_miss gpi st tags vals hld
        (by rw [hit]; exact hsess)
      rw [hit] at h
      exact ⟨_, h, hsess⟩

/-- C1 (amended): for every regressor with an implemented
`get_params_internal` and every tag set without a `debug` key, provided any
cached shape or dtype entry for that tag set agrees with the selected
parameters' current shapes and dtypes (a cold cache satisfies this vacuously,
and a warm cache satisfies it in every state the program reaches, since the
caches are filled from session reads of the same parameters and TensorFlow
variable shapes and dtypes are static), `get_param_values` returns the
parameters' current values flattened into a single vector,
`set_param_values` unflattens such a vector according to the cached parameter
shapes and assigns each piece to the corresponding parameter, and the round
trip `set_param_values(get_param_values(**tags), **tags)` leaves every
parameter's value in the session unchanged. -/
theorem c1_round_trip (vdt : Param → TfDtype) (gpi : Tags → List Param)
    (self : RState) (tags : Tags) (vals : Param → NpArr)
    (hsess : self.session = some vals)
    (hdbg : lookupA "debug" tags = none)
    (hsh : ∀ ss, lookupA (sortTags tags) self.cachedParamShapes = some ss →
      ss = (((get_params gpi self tags).1).map vals).map NpArr.shape)
    (hdt : ∀ ds, lookupA (sortTags tags) self.cachedParamDtypes = some ds →
      ds = (((get_params gpi self tags).1).map vals).map NpArr.dtype)
    (hwf : ∀ p ∈ (get_params gpi self tags).1,
      ((vals p).data).length = ((vals p).shape).prod) :
    ∃ st₁ st₂,
      get_param_values gpi self tags =
        .ok (flatten_tensors (((get_params gpi self tags).1).map vals), st₁) ∧
      set_param_values vdt gpi st₁
          (flatten_tensors (((get_params gpi self tags).1).map vals)) none tags =
        (.ok ((), st₂), []) ∧
      st₂.session = self.session := by
  obtain ⟨ps, stA, hP⟩ : ∃ ps stA, get_params gpi self tags = (ps, stA) :=
    ⟨_, _, rfl⟩
  have hAc : lookupA (sortTags tags) stA.cachedParams = some ps := by
    have := get_params_cached gpi self tags
    rwa [hP] at this
  have hAsess : stA.session = some vals := by
    have := get_params_session gpi self tags
    rw [hP] at this
    rw [this, hsess]
  have hAsh : stA.cachedParamShapes = self.cachedParamShapes := by
    have := get_params_shapesCache gpi self tags
    rwa [hP] at this
  have hAdt : stA.cachedParamDtypes = self.cachedParamDtypes := by
    have := get_params_dtypesCache gpi self tags
    rwa [hP] at this
  rw [hP] at hwf hsh hdt
  rw [hP]
  have hwf' : ∀ a ∈ ps.map vals, a.data.length = a.shape.prod := by
    intro a ha
    obtain ⟨p, hp, rfl⟩ := List.mem_map.mp ha
    exact hwf p hp
  -- First leg: get_param_values reads and flattens the current values.
  have h₁ : get_param_values gpi self tags =
      .ok (flatten_tensors (ps.map vals),
        { stA with sessionReads := stA.sessionReads + 1 }) := by
    have := @get_param_values_eq gpi self tags vals (by rw [hP]; exact hAsess)
    rwa [hP] at this
  set st₁ : RState := { stA with sessionReads := stA.sessionReads + 1 } with hst₁
  -- Facts about st₁.
  have h₁c : lookupA (sortTags tags) st₁.cachedParams = some ps := hAc
  have h₁sess : st₁.session = some vals := hAsess
  -- Shapes step inside set_param_values; the cache may be warm or cold.
  have hconsS : ∀ ss, lookupA (sortTags tags) st₁.cachedParamShapes = some ss →
      ss = (ps.map vals).map NpArr.shape := by
    intro ss hss
    have hss₂ : lookupA (sortTags tags) self.cachedParamShapes = some ss := by
      rw [← hAsh]
      exact hss
    exact hsh ss hss₂
  obtain ⟨stB, hSB, hBc, hBsess, hBdt⟩ :=
    @get_param_shapes_consistent gpi st₁ tags vals ps h₁c h₁sess hconsS
  have hitB : get_params gpi stB tags = (ps, stB) := get_params_hit hBc
  -- Unflattening by the cached shapes recovers the pieces.
  have huf : unflatten_tensors (flatten_tensors (ps.map vals))
      ((ps.map vals).map NpArr.shape) =
      .ok ((ps.map vals).map (fun a => (a.shape, a.data))) :=
    unflatten_flatten (ps.map vals) hwf'
  -- Dtypes step inside set_param_values; the cache may be warm or cold.
  have hconsD : ∀ ds, lookupA (sortTags tags) stB.cachedParamDtypes = some ds →
      ds = (ps.map vals).map NpArr.dtype := by
    intro ds hds
    rw [hBdt] at hds
    have hds₂ : lookupA (sortTags tags) self.cachedParamDtypes = some ds := by
      rw [← hAdt]
      exact hds
    exact hdt ds hds₂
  obtain ⟨stC, hDC, hCsess⟩ :=
    @get_param_dtypes_consistent gpi stB tags vals ps hBc hBsess hconsD
  -- Assemble the set_param_values run.
  have hspv : ∃ st₄,
      set_param_values vdt gpi st₁ (flatten_tensors (ps.map vals)) none tags =
        (.ok ((), st₄), []) ∧ st₄.session = self.session := by
    simp only [set_param_values, hdbg, eraseKey_of_lookup_none hdbg,
      Option.getD, hSB, huf, hitB, hDC]
    rw [List.map_map, List.map_map, zip_self_map, List.zip_map']
    rw [sessionRunAssign_some
      (by rw [assignLoop_session]; exact hCsess) _]
    rw [assignLoop_prints_false]
    refine ⟨_, rfl, ?_⟩
    rw [assignLoop_pairs, List.map_map]
    show some _ = self.session
    rw [hsess]
    congr 1
    exact foldl_update_astype vals ps
  obtain ⟨st₄, hs₄, hsess₄⟩ := hspv
  exact ⟨st₁, st₄, h₁, hs₄, hsess₄⟩

/-! ## Concrete instances used by witnesses and counterexamples -/

/-- A concrete session store: parameter 0 holds a two-element float32 vector,
every other parameter a float32 scalar. -/
def vals0 : Param → NpArr := fun p =>
  if p = 0 then ⟨float32, [2], [5, 6]⟩ else ⟨float32, [], [7]⟩

/-- Concrete TensorFlow variable dtypes: float32 reference variables. -/
def vdt0 : Param → TfDtype := fun _ => ⟨float32, true⟩

/-- A concrete `get_params_internal` implementation: two parameters. -/
def gpi0 : Tags → List Param := fun _ => [0, 1]

/-- A freshly constructed regressor in a world with a default session. -/
def st0 : RState := Regressor2.init [2] 1 "reg" (some vals0) 0

theorem c1_round_trip_witness :
    st0.session = some vals0 ∧
    lookupA "debug" ([] : Tags) = none ∧
    (∀ ss, lookupA (sortTags []) st0.cachedParamShapes = some ss →
      ss = (((get_params gpi0 st0 []).1).map vals0).map NpArr.shape) ∧
    (∀ ds, lookupA (sortTags []) st0.cachedParamDtypes = some ds →
      ds = (((get_params gpi0 st0 []).1).map vals0).map NpArr.dtype) ∧
    (∀ p ∈ (get_params gpi0 st0 []).1,
      ((vals0 p).data).length = ((vals0 p).shape).prod) ∧
    (∃ st₁ st₂,
      get_param_values gpi0 st0 [] =
        .ok (flatten_tensors (((get_params gpi0 st0 []).1).map vals0), st₁) ∧
      set_param_values vdt0 gpi0 st₁
          (flatten_tensors (((get_params gpi0 st0 []).1).map vals0)) none [] =
        (.ok ((), st₂), []) ∧
      st₂.session = st0.session) :=
  ⟨rfl, rfl, fun ss h => Option.noConfusion h, fun ds h => Option.noConfusion h,
    by decide,
    c1_round_trip vdt0 gpi0 st0 [] vals0 rfl rfl
      (fun ss h => Option.noConfusion h) (fun ds h => Option.noConfusion h)
      (by decide)⟩

/-- A `get_params_internal` implementation that reacts to a `debug` tag, as
any subclass filtering variables by the tags it receives may. -/
def gpiC1 : Tags → List Param := fun tags =>
  if (lookupA "debug" tags).getD false then [0] else [1]

/-- A session store for the C1 counterexample. -/
def valsC1 : Param → NpArr := fun p =>
  if p = 0 then ⟨float32, [], [5]⟩ else ⟨float32, [], [7]⟩

/-- A fresh regressor for the C1 counterexample. -/
def stC1 : RState := Regressor2.init [] 1 "reg" (some valsC1) 0

/-- The C1 round trip executed with the tag set `{debug: True}`, returning
the final session value of parameter 1. -/
def roundTripC1 : Except PyError (Option NpArr) :=
  match get_param_values gpiC1 stC1 [("debug", true)] with
  | .error e => .error e
  | .ok (flat, st₁) =>
      match (set_param_values vdt0 gpiC1 st₁ flat none [("debug", true)]).1 with
      | .error e => .error e
      | .ok (_, st₂) => .ok (st₂.session.map (fun v => v 1))

/-- C1 counterexample: with the tag set `{debug: True}`,
`set_param_values(get_param_values(**tags), **tags)` changes parameter 1 from
its original scalar value 7 to 5, because `set_param_values` pops the `debug`
tag before its lookups while `get_param_values` does not, so the two calls can
select different parameters; the round trip does not leave every parameter's
value unchanged. -/
theorem c1_counterexample :
    roundTripC1 = .ok (some ⟨float32, [], [5]⟩) ∧
    valsC1 1 = ⟨float32, [], [7]⟩ ∧
    (⟨float32, [], [5]⟩ : NpArr) ≠ ⟨float32, [], [7]⟩ :=
  ⟨rfl, rfl, by decide⟩

/-! ## C2: caching under the sorted tag tuple -/

theorem get_param_dtypes_cached {gpi : Tags → List Param} {st : RState}
    {tags : Tags} {d : List NpDtype} {st₁ : RState}
    (h : get_param_dtypes gpi st tags = .ok (d, st₁)) :
    lookupA (sortTags tags) st₁.cachedParamDtypes = some d := by
  simp only [get_param_dtypes] at h
  cases hl : lookupA (sortTags tags) st.cachedParamDtypes with
  | some ds =>
      rw [hl] at h
      simp only [Except.ok.injEq, Prod.mk.injEq] at h
      obtain ⟨hd, hst⟩ := h
      subst hst
      rw [hl, hd]
  | none =>
      rw [hl] at h
      cases hsr : sessionRunRead (get_params gpi st tags).2 (get_params gpi st tags).1 with
      | error e => rw [hsr] at h; simp at h
      | ok pr₂ =>
          obtain ⟨pvs, s₂⟩ := pr₂
          rw [hsr] at h
          simp only [Except.ok.injEq, Prod.mk.injEq] at h
          obtain ⟨hd, hst⟩ := h
          subst hst
          rw [← hd]
          exact lookupA_cons_self _ _ _

theorem get_param_shapes_cached {gpi : Tags → List Param} {st : RState}
    {tags : Tags} {s : List Shape} {st₁ : RState}
    (h : get_param_shapes gpi st tags = .ok (s, st₁)) :
    lookupA (sortTags tags) st₁.cachedParamShapes = some s := by
  simp only [get_param_shapes] at h
  cases hl : lookupA (sortTags tags) st.cachedParamShapes with
  | some ss =>
      rw [hl] at h
      simp only [Except.ok.injEq, Prod.mk.injEq] at h
      obtain ⟨hs, hst⟩ := h
      subst hst
      rw [hl, hs]
  | none =>
      rw [hl] at h
      cases hsr : sessionRunRead (get_params gpi st tags).2 (get_params gpi st tags).1 with
      | error e => rw [hsr] at h; simp at h
      | ok pr₂ =>
          obtain ⟨pvs, s₂⟩ := pr₂
          rw [hsr] at h
          simp only [Except.ok.injEq, Prod.mk.injEq] at h
          obtain ⟨hs, hst⟩ := h
          subst hst
          rw [← hs]
          exact lookupA_cons_self _ _ _

/-- C2: `get_params`, `get_param_dtypes` and `get_param_shapes` are cached
under the tuple of tag items sorted by tag name: with the same tag bindings
given in any keyword order, a second call returns the identical cached result
and leaves the whole state unchanged, in particular the
`get_params_internal` call counter and the session read counter, so the
underlying computation runs at most once per distinct tag set. -/
theorem c2_tag_cache (gpi : Tags → List Param) (st : RState) (tags₁ tags₂ : Tags)
    (hperm : tags₁.Perm tags₂) (hnd : (tags₁.map Prod.fst).Nodup) :
    (get_params gpi ((get_params gpi st tags₁).2) tags₂ =
      ((get_params gpi st tags₁).1, (get_params gpi st tags₁).2)) ∧
    (∀ d st₁, get_param_dtypes gpi st tags₁ = .ok (d, st₁) →
      get_param_dtypes gpi st₁ tags₂ = .ok (d, st₁)) ∧
    (∀ s st₁, get_param_shapes gpi st tags₁ = .ok (s, st₁) →
      get_param_shapes gpi st₁ tags₂ = .ok (s, st₁)) := by
  have hsort : sortTags tags₂ = sortTags tags₁ :=
    (sortTags_eq_of_perm hperm hnd).symm
  refine ⟨?_, ?_, ?_⟩
  · apply get_params_hit
    rw [hsort]
    exact get_params_cached gpi st tags₁
  · intro d st₁ h
    apply get_param_dtypes_hit
    rw [hsort]
    exact get_param_dtypes_cached h
  · intro s st₁ h
    apply get_param_shapes_hit
    rw [hsort]
    exact get_param_shapes_cached h

theorem c2_tag_cache_witness :
    (([("trainable", true), ("regularizable", false)] : Tags).Perm
      [("regularizable", false), ("trainable", true)]) ∧
    ((([("trainable", true), ("regularizable", false)] : Tags).map Prod.fst).Nodup) ∧
    ((get_params gpi0
        ((get_params gpi0 st0 [("trainable", true), ("regularizable", false)]).2)
        [("regularizable", false), ("trainable", true)] =
      ((get_params gpi0 st0 [("trainable", true), ("regularizable", false)]).1,
        (get_params gpi0 st0 [("trainable", true), ("regularizable", false)]).2)) ∧
    (∀ d st₁, get_param_dtypes gpi0 st0
        [("trainable", true), ("regularizable", false)] = .ok (d, st₁) →
      get_param_dtypes gpi0 st₁
        [("regularizable", false), ("trainable", true)] = .ok (d, st₁)) ∧
    (∀ s st₁, get_param_shapes gpi0 st0
        [("trainable", true), ("regularizable", false)] = .ok (s, st₁) →
      get_param_shapes gpi0 st₁
        [("regularizable", false), ("trainable", true)] = .ok (s, st₁))) :=
  ⟨by decide, by decide,
    c2_tag_cache gpi0 st0 [("trainable", true), ("regularizable", false)]
      [("regularizable", false), ("trainable", true)] (by decide) (by decide)⟩

/-! ## C4: cache invalidation -/

/-- A `get_params_internal` returning one parameter. -/
def gpiA : Tags → List Param := fun _ => [0]

/-- A `get_params_internal` returning two parameters, standing for the
underlying parameter set after it changed. -/
def gpiB : Tags → List Param := fun _ => [0, 1]

/-- C4 counterexample: after `get_params` cached the parameter list `[0]`, the
underlying parameter set changes to `[0, 1]`, yet a subsequent `get_params`
call for the same tag set still returns the stale cached `[0]` instead of the
current parameters: the caches are never invalidated during the object's
lifetime. -/
theorem c4_counterexample :
    (get_params gpiB ((get_params gpiA st0 []).2) []).1 = [0] ∧
    gpiB [] = [0, 1] ∧
    (get_params gpiB ((get_params gpiA st0 []).2) []).1 ≠ gpiB [] :=
  ⟨rfl, rfl, by decide⟩

/-! ## C3: serialization excludes the caches -/

/-- A Python attribute value; `emptyDict` stands for a freshly initialized
empty cache dict, `val` for any other attribute value. -/
inductive PyVal where
  | emptyDict
  | val (n : Nat)
deriving DecidableEq

/-- A Python object's `__dict__`: a finite map from attribute names to
values, absent attributes mapping to `none`. -/
def PyDict := String → Option PyVal

/-- The five cache attributes `Regressor2.__getstate__` deletes. -/
def cacheKeys : List String :=
  ["_cached_params", "_cached_param_dtypes", "_cached_param_shapes",
    "_cached_assign_ops", "_cached_assign_placeholders"]

/-- `Regressor2.__getstate__`: a copy of `self.__dict__` with exactly the
five cache attributes deleted. -/
def getstate (d : PyDict) : PyDict :=
  fun k => if k ∈ cacheKeys then none else d k

/-- `Regressor2.__setstate__`: assign a fresh empty dict to each of the five
cache attributes, then `self.__dict__.update(state)`. -/
def setstate (d : PyDict) (state : PyDict) : PyDict :=
  fun k =>
    match state k with
    | some v => some v
    | none => if k ∈ cacheKeys then some PyVal.emptyDict else d k

/-- C3: `__getstate__` removes exactly the five cache fields and keeps every
other attribute unchanged; after `__setstate__` with a snapshot that carries
no cache field (as every `__getstate__` output does), all five cache fields
are empty dicts and every attribute present in the snapshot equals its
snapshot value. -/
theorem c3_serialization (d state : PyDict) (k : String) :
    (k ∈ cacheKeys → getstate d k = none) ∧
    (k ∉ cacheKeys → getstate d k = d k) ∧
    ((∀ c ∈ cacheKeys, state c = none) → k ∈ cacheKeys →
      setstate d state k = some PyVal.emptyDict) ∧
    (∀ v, state k = some v → setstate d state k = some v) := by
  refine ⟨fun h => ?_, fun h => ?_, fun hs hk => ?_, fun v hv => ?_⟩
  · simp [getstate, h]
  · simp [getstate, h]
  · simp [setstate, hs k hk, hk]
  · simp [setstate, hv]

theorem c3_serialization_witness :
    ("_cached_params" ∈ cacheKeys) ∧
    getstate (fun _ => some (PyVal.val 3)) "_cached_params" = none ∧
    (∀ c ∈ cacheKeys, getstate (fun _ => some (PyVal.val 3)) c = none) ∧
    setstate (fun _ => some (PyVal.val 3))
      (getstate (fun _ => some (PyVal.val 3))) "_cached_params" =
        some PyVal.emptyDict ∧
    setstate (fun _ => some (PyVal.val 3))
      (getstate (fun _ => some (PyVal.val 3))) "_name" = some (PyVal.val 3) :=
  ⟨by decide,
    (c3_serialization (fun _ => some (PyVal.val 3))
      (getstate (fun _ => some (PyVal.val 3))) "_cached_params").1 (by decide),
    fun c hc => (c3_serialization (fun _ => some (PyVal.val 3))
      (getstate (fun _ => some (PyVal.val 3))) c).1 hc,
    (c3_serialization (fun _ => some (PyVal.val 3))
      (getstate (fun _ => some (PyVal.val 3))) "_cached_params").2.2.1
      (fun c hc => (c3_serialization (fun _ => some (PyVal.val 3))
        (getstate (fun _ => some (PyVal.val 3))) c).1 hc) (by decide),
    (c3_serialization (fun _ => some (PyVal.val 3))
      (getstate (fun _ => some (PyVal.val 3))) "_name").2.2.2
      (PyVal.val 3) rfl⟩

/-! ## C7: abstract methods raise NotImplementedError -/

/-- `Regressor2.fit`: `raise NotImplementedError`, state unchanged. -/
def Regressor2.fit (self : RState) (xs ys : NpArr) :
    Except PyError Unit × RState :=
  (.error .notImplementedError, self)

/-- `Regressor2.predict`: `raise NotImplementedError`, state unchanged. -/
def Regressor2.predict (self : RState) (xs : NpArr) :
    Except PyError Unit × RState :=
  (.error .notImplementedError, self)

/-- The base `Regressor2.get_params_internal`: `raise NotImplementedError`,
state unchanged (subclasses override it with the `gpi` functions used by the
cached getters). -/
def Regressor2.get_params_internal (self : RState) (tags : Tags) :
    Except PyError (List Param) × RState :=
  (.error .notImplementedError, self)

/-- `StochasticRegressor2.log_likelihood_sym`: `raise NotImplementedError`. -/
def StochasticRegressor2.log_likelihood_sym (self : RState) (x_var y_var : Nat)
    (name : Option String) : Except PyError Unit × RState :=
  (.error .notImplementedError, self)

/-- `StochasticRegressor2.dist_info_sym`: `raise NotImplementedError`. -/
def StochasticRegressor2.dist_info_sym (self : RState) (x_var : Nat)
    (name : Option String) : Except PyError Unit × RState :=
  (.error .notImplementedError, self)

/-- C7: `fit`, `predict` and `get_params_internal` on `Regressor2`, and
`log_likelihood_sym` and `dist_info_sym` on `StochasticRegressor2`, raise
`NotImplementedError` for every argument combination and leave the object's
state unchanged. -/
theorem c7_not_implemented (st : RState) (xs ys : NpArr) (x y : Nat)
    (nm : Option String) (tags : Tags) :
    Regressor2.fit st xs ys = (.error .notImplementedError, st) ∧
    Regressor2.predict st xs = (.error .notImplementedError, st) ∧
    Regressor2.get_params_internal st tags = (.error .notImplementedError, st) ∧
    StochasticRegressor2.log_likelihood_sym st x y nm =
      (.error .notImplementedError, st) ∧
    StochasticRegressor2.dist_info_sym st x nm =
      (.error .notImplementedError, st) :=
  ⟨rfl, rfl, rfl, rfl, rfl⟩

/-! ## DiscreteMLPQFunction (C6, C8) -/

/-- A gym-style space as the env spec exposes it: a shape (used for
observation spaces) and a flattened dimension (used for action spaces). -/
structure Space where
  shape : List Nat
  flat_dim : Nat

/-- The environment specification input to the Q-function. -/
structure EnvSpec where
  observation_space : Space
  action_space : Space

/-- A TensorFlow placeholder node: dtype, static shape (`none` is the `None`
batch dimension), and name. -/
structure TfPlaceholder where
  dtype : NpDtype
  shape : List (Option Nat)
  name : String
deriving DecidableEq

/-- A TensorFlow variable scope: the reuse flag and the scope name. -/
structure TfVariableScope where
  reuse : Bool
  name : String
deriving DecidableEq

/-- Modelled from the spec: the external generic `MLPModel` collaborator
(`garage.tf.models`, not under `src/`). It records the constructor arguments;
activation and initializer callables are opaque handles; `forward` is the
function the built network computes on a fed observation, determined by the
external graph engine from the architecture and its trained weights. -/
structure MLPModel where
  output_dim : Nat
  name : String
  hidden_sizes : List Nat
  hidden_nonlinearity : Nat
  hidden_w_init : Nat
  hidden_b_init : Nat
  output_nonlinearity : Nat
  output_w_init : Nat
  output_b_init : Nat
  layer_normalization : Bool
  forward : List Int → List Int

/-- Modelled from the spec: the network `model.networks['default']` that
`model.build(obs_ph)` creates: its input placeholder, the variable scope the
build ran in, and its symbolic outputs as a function of the fed
observation. -/
structure Network where
  input : TfPlaceholder
  scope : TfVariableScope
  outputs : List Int → List Int

/-- The `DiscreteMLPQFunction` object after `__init__`. -/
structure DiscreteMLPQFunction where
  variable_scope : TfVariableScope
  model : MLPModel
  network_default : Network

/-- `DiscreteMLPQFunction.__init__`: build one `MLPModel` whose output
dimension is `env_spec.action_space.flat_dim`, passing the name and layer
arguments through; create a float32 observation placeholder of shape
`(None,) + env_spec.observation_space.shape` named `obs`; build the model on
that placeholder inside a variable scope named `name` created with reuse
disabled. -/
def DiscreteMLPQFunction.init (env_spec : EnvSpec) (name : String)
    (hidden_sizes : List Nat)
    (hidden_nonlinearity hidden_w_init hidden_b_init : Nat)
    (output_nonlinearity output_w_init output_b_init : Nat)
    (layer_normalization : Bool) (forward : List Int → List Int) :
    DiscreteMLPQFunction :=
  let obs_dim := env_spec.observation_space.shape
  let action_dim := env_spec.action_space.flat_dim
  let scope : TfVariableScope := ⟨false, name⟩
  let model : MLPModel :=
    { output_dim := action_dim
      name := name
      hidden_sizes := hidden_sizes
      hidden_nonlinearity := hidden_nonlinearity
      hidden_w_init := hidden_w_init
      hidden_b_init := hidden_b_init
      output_nonlinearity := output_nonlinearity
      output_w_init := output_w_init
      output_b_init := output_b_init
      layer_normalization := layer_normalization
      forward := forward }
  let obs_ph : TfPlaceholder := ⟨float32, none :: obs_dim.map some, "obs"⟩
  { variable_scope := scope
    model := model
    network_default := { input := obs_ph, scope := scope, outputs := model.forward } }

/-- `DiscreteMLPQFunction.q_vals`: the symbolic outputs of the default
network, one Q-value per discrete action, as a function of the fed
observation. -/
def DiscreteMLPQFunction.q_vals (qf : DiscreteMLPQFunction) :
    List Int → List Int :=
  qf.network_default.outputs

/-- `DiscreteMLPQFunction.input`: the default network's input placeholder. -/
def DiscreteMLPQFunction.input (qf : DiscreteMLPQFunction) : TfPlaceholder :=
  qf.network_default.input

/-- The Q-value predicted for a (state, action) pair: the discrete action
indexes the `q_vals` vector the network computes on the state (out-of-range
actions default to 0). -/
def qval (qf : DiscreteMLPQFunction) (s : List Int) (a : Nat) : Int :=
  (qf.q_vals s).getD a 0

/-- C6: the Q-function realizes `Q(s, a)`: the predicted Q-value is the
action-indexed component of the network output on the state, a function of
the (state, action) pair, and it genuinely depends on both inputs: there is
an instantiation of the external MLP where changing only the action changes
the Q-value and changing only the state changes the Q-value. -/
theorem c6_qval_depends_on_state_and_action :
    (∀ (env_spec : EnvSpec) (name : String) (hidden_sizes : List Nat)
        (hn hw hb onl ow ob : Nat) (ln : Bool) (fw : List Int → List Int)
        (s : List Int) (a : Nat),
      qval (DiscreteMLPQFunction.init env_spec name hidden_sizes
          hn hw hb onl ow ob ln fw) s a = (fw s).getD a 0) ∧
    ∃ (env_spec : EnvSpec) (fw : List Int → List Int)
        (s s' : List Int) (a a' : Nat),
      qval (DiscreteMLPQFunction.init env_spec "q" [32, 32]
          0 0 0 0 0 0 false fw) s a ≠
        qval (DiscreteMLPQFunction.init env_spec "q" [32, 32]
          0 0 0 0 0 0 false fw) s a' ∧
      qval (DiscreteMLPQFunction.init env_spec "q" [32, 32]
          0 0 0 0 0 0 false fw) s a ≠
        qval (DiscreteMLPQFunction.init env_spec "q" [32, 32]
          0 0 0 0 0 0 false fw) s' a ∧
      (DiscreteMLPQFunction.init env_spec "q" [32, 32]
          0 0 0 0 0 0 false fw).model.output_dim =
        env_spec.action_space.flat_dim :=
  ⟨fun _ _ _ _ _ _ _ _ _ _ _ _ _ => rfl,
    ⟨⟨⟨[1], 1⟩, ⟨[1], 2⟩⟩, fun s => [s.headD 0, s.headD 0 + 1],
      [0], [10], 0, 1, by decide, by decide, rfl⟩⟩

/-- C8: `__init__` is an adapter from the environment specification to a
model instance: it constructs exactly one `MLPModel` whose output dimension
equals `env_spec.action_space.flat_dim`, passes the name and layer arguments
through, creates a float32 observation placeholder named `obs` of shape
`(None,) + env_spec.observation_space.shape`, and builds the model on that
placeholder inside a variable scope named `name` with reuse disabled. -/
theorem c8_init_adapter (env_spec : EnvSpec) (name : String)
    (hidden_sizes : List Nat) (hn hw hb onl ow ob : Nat) (ln : Bool)
    (fw : List Int → List Int) :
    let qf := DiscreteMLPQFunction.init env_spec name hidden_sizes
      hn hw hb onl ow ob ln fw
    qf.model.output_dim = env_spec.action_space.flat_dim ∧
    qf.model.name = name ∧
    qf.model.hidden_sizes = hidden_sizes ∧
    qf.model.hidden_nonlinearity = hn ∧
    qf.model.hidden_w_init = hw ∧
    qf.model.hidden_b_init = hb ∧
    qf.model.output_nonlinearity = onl ∧
    qf.model.output_w_init = ow ∧
    qf.model.output_b_init = ob ∧
    qf.model.layer_normalization = ln ∧
    qf.model.forward = fw ∧
    qf.network_default.input =
      ⟨float32, none :: env_spec.observation_space.shape.map some, "obs"⟩ ∧
    qf.variable_scope = ⟨false, name⟩ ∧
    qf.network_default.scope = qf.variable_scope ∧
    qf.network_default.outputs = fw :=
  ⟨rfl, rfl, rfl, rfl, rfl, rfl, rfl, rfl, rfl, rfl, rfl, rfl, rfl, rfl, rfl⟩

/-! ## C9: error propagation -/

theorem sessionRunRead_ok_session {st : RState} {params : List Param}
    {pvs : List NpArr} {st₁ : RState}
    (h : sessionRunRead st params = .ok (pvs, st₁)) :
    st₁.session = st.session := by
  simp only [sessionRunRead] at h
  cases hs : st.session with
  | none => rw [hs] at h; simp at h
  | some v =>
      rw [hs] at h
      simp only [Except.ok.injEq, Prod.mk.injEq] at h
      rw [← h.2]

theorem get_param_dtypes_session {gpi : Tags → List Param} {st : RState}
    {tags : Tags} {d : List NpDtype} {st₁ : RState}
    (h : get_param_dtypes gpi st tags = .ok (d, st₁)) :
    st₁.session = st.session := by
  simp only [get_param_dtypes] at h
  cases hl : lookupA (sortTags tags) st.cachedParamDtypes with
  | some ds =>
      rw [hl] at h
      simp only [Except.ok.injEq, Prod.mk.injEq] at h
      rw [← h.2]
  | none =>
      rw [hl] at h
      cases hsr : sessionRunRead (get_params gpi st tags).2 (get_params gpi st tags).1 with
      | error e => rw [hsr] at h; simp at h
      | ok pr₂ =>
          obtain ⟨pvs, s₂⟩ := pr₂
          rw [hsr] at h
          simp only [Except.ok.injEq, Prod.mk.injEq] at h
          rw [← h.2]
          show s₂.session = st.session
          rw [sessionRunRead_ok_session hsr, get_params_session]

theorem get_param_shapes_session {gpi : Tags → List Param} {st : RState}
    {tags : Tags} {s : List Shape} {st₁ : RState}
    (h : get_param_shapes gpi st tags = .ok (s, st₁)) :
    st₁.session = st.session := by
  simp only [get_param_shapes] at h
  cases hl : lookupA (sortTags tags) st.cachedParamShapes with
  | some ss =>
      rw [hl] at h
      simp only [Except.ok.injEq, Prod.mk.injEq] at h
      rw [← h.2]
  | none =>
      rw [hl] at h
      cases hsr : sessionRunRead (get_params gpi st tags).2 (get_params gpi st tags).1 with
      | error e => rw [hsr] at h; simp at h
      | ok pr₂ =>
          obtain ⟨pvs, s₂⟩ := pr₂
          rw [hsr] at h
          simp only [Except.ok.injEq, Prod.mk.injEq] at h
          rw [← h.2]
          show s₂.session = st.session
          rw [sessionRunRead_ok_session hsr, get_params_session]

/-- Unflattening a vector whose length does not match the total size of a
nonempty shape list raises the reshape `ValueError`. -/
theorem unflatten_mismatch : ∀ (shapes : List Shape), shapes ≠ [] →
    ∀ (flat : List Int), flat.length ≠ (shapes.map List.prod).sum →
    unflatten_tensors flat shapes = .error .valueError := by
  intro shapes
  induction shapes with
  | nil => intro h; exact absurd rfl h
  | cons s rest ih =>
      intro _ flat hlen
      cases rest with
      | nil =>
          simp only [List.map, List.sum_cons, List.sum_nil, Nat.add_zero] at hlen
          simp [unflatten_tensors, splitChunks, reshapeAll, reshapeChunk,
            List.zip, hlen]
      | cons s₂ rest₂ =>
          simp only [unflatten_tensors, splitChunks, List.zip, List.zipWith,
            reshapeAll]
          by_cases htk : (flat.take s.prod).length = s.prod
          · have hge : s.prod ≤ flat.length := by
              rw [List.length_take] at htk
              omega
            have hdrop : (flat.drop s.prod).length ≠
                (((s₂ :: rest₂) : List Shape).map List.prod).sum := by
              rw [List.length_drop]
              simp only [List.map, List.sum_cons] at hlen ⊢
              omega
            have hrec := ih (by simp) (flat.drop s.prod) hdrop
            simp only [unflatten_tensors, List.zip] at hrec
            simp [reshapeChunk, htk, hge, hrec]
          · have hlt : ¬ s.prod ≤ flat.length := by
              rw [List.length_take] at htk
              omega
            simp [reshapeChunk, htk, hlt]

/-- C9 (amended): every one of the four operations performs no internal error
handling. `get_param_values` always reads the default session, and the final
assignment run of `set_param_values` always needs it, so with no default
session set they propagate the framework error unchanged (`set_param_values`
can never succeed). `get_param_dtypes` and `get_param_shapes` read the
session only on a cache miss, where the missing-session error propagates
unchanged. A flattened vector whose length mismatches a nonempty cached
shape list makes `set_param_values` propagate the reshape `ValueError`
unchanged; no operation catches an error or falls back. -/
theorem c9_errors_propagate :
    (∀ (gpi : Tags → List Param) (st : RState) (tags : Tags),
      st.session = none →
      get_param_values gpi st tags = .error .noDefaultSession) ∧
    (∀ (gpi : Tags → List Param) (st : RState) (tags : Tags),
      st.session = none →
      lookupA (sortTags tags) st.cachedParamDtypes = none →
      get_param_dtypes gpi st tags = .error .noDefaultSession) ∧
    (∀ (gpi : Tags → List Param) (st : RState) (tags : Tags),
      st.session = none →
      lookupA (sortTags tags) st.cachedParamShapes = none →
      get_param_shapes gpi st tags = .error .noDefaultSession) ∧
    (∀ (vdt : Param → TfDtype) (gpi : Tags → List Param) (st : RState)
        (flat : List Int) (nm : Option String) (tags : Tags)
        (r : Unit × RState),
      st.session = none → (set_param_values vdt gpi st flat nm tags).1 ≠ .ok r) ∧
    (∀ (vdt : Param → TfDtype) (gpi : Tags → List Param) (st : RState)
        (flat : List Int) (nm : Option String) (tags : Tags)
        (shapes : List Shape) (st₁ : RState),
      get_param_shapes gpi st (eraseKey "debug" tags) = .ok (shapes, st₁) →
      shapes ≠ [] → flat.length ≠ (shapes.map List.prod).sum →
      (set_param_values vdt gpi st flat nm tags).1 = .error .valueError) := by
  refine ⟨?_, ?_, ?_, ?_, ?_⟩
  · intro gpi st tags h
    simp only [get_param_values]
    rw [sessionRunRead_none (by rw [get_params_session]; exact h)]
  · intro gpi st tags h hm
    exact get_param_dtypes_none_session hm (by rw [get_params_session]; exact h)
  · intro gpi st tags h hm
    exact get_param_shapes_none_session hm (by rw [get_params_session]; exact h)
  · intro vdt gpi st flat nm tags r h
    simp only [set_param_values]
    split
    · simp
    rename_i shapes st₁ hS
    have h₁ : st₁.session = none := by
      rw [get_param_shapes_session hS]; exact h
    split
    · simp
    rename_i values hU
    split
    · simp
    rename_i dtypes st₃ hD
    have h₃ : st₃.session = none := by
      rw [get_param_dtypes_session hD, get_params_session]
      exact h₁
    rw [sessionRunAssign_none (by rw [assignLoop_session]; exact h₃)]
    simp
  · intro vdt gpi st flat nm tags shapes st₁ hS hne hlen
    simp only [set_param_values]
    split
    · rename_i e heq
      rw [hS] at heq
      simp at heq
    rename_i shapes₂ st₂ heq
    rw [hS] at heq
    simp only [Except.ok.injEq, Prod.mk.injEq] at heq
    obtain ⟨hq₁, hq₂⟩ := heq
    subst hq₁
    subst hq₂
    rw [unflatten_mismatch shapes hne flat hlen]

/-- A regressor with no default session but a warm dtype cache. -/
def stC9 : RState :=
  { Regressor2.init [] 1 "reg" none 0 with
      cachedParamDtypes := [([], [float32])] }

/-- C9 counterexample: with no default session set, a `get_param_dtypes`
call whose tag tuple is already cached returns the cached dtypes without
touching the session, so no framework error reaches the caller; the claim
that each of the four operations executes against the default session and
propagates its error whenever no default session is set is therefore false
as stated. -/
theorem c9_counterexample :
    stC9.session = none ∧
    get_param_dtypes gpi0 stC9 [] = .ok ([float32], stC9) :=
  ⟨rfl, rfl⟩

theorem c9_errors_propagate_witness :
    ((Regressor2.init [] 1 "reg" none 0).session = none) ∧
    get_param_values gpi0 (Regressor2.init [] 1 "reg" none 0) [] =
      .error .noDefaultSession ∧
    ((set_param_values vdt0 gpi0 (Regressor2.init [] 1 "reg" none 0)
        [5] none []).1 ≠ .ok ((), Regressor2.init [] 1 "reg" none 0)) ∧
    (set_param_values vdt0 gpi0 st0 [5] none []).1 = .error .valueError :=
  ⟨rfl,
    c9_errors_propagate.1 gpi0 (Regressor2.init [] 1 "reg" none 0) [] rfl,
    c9_errors_propagate.2.2.2.1 vdt0 gpi0 (Regressor2.init [] 1 "reg" none 0)
      [5] none [] ((), Regressor2.init [] 1 "reg" none 0) rfl,
    rfl⟩

/-! ## C10: the debug tag only controls printing -/

/-- The `Except` component of a `set_param_values` result does not depend on
the popped `debug` value: two tag sets with the same bindings after removing
`debug` produce the same new state and the same outcome, differing at most in
the printed-parameters component. -/
theorem set_param_values_fst_eq (vdt : Param → TfDtype) (gpi : Tags → List Param)
    (st : RState) (flat : List Int) (nm : Option String) (tags₁ tags₂ : Tags)
    (he : eraseKey "debug" tags₁ = eraseKey "debug" tags₂) :
    (set_param_values vdt gpi st flat nm tags₁).1 =
      (set_param_values vdt gpi st flat nm tags₂).1 := by
  simp only [set_param_values, he]
  split
  · rfl
  rename_i shapes st₁ heq
  split
  · rfl
  rename_i values heq₂
  split
  · rfl
  rename_i dtypes st₃ heq₃
  simp only []
  rw [(assignLoop_debug_irrel vdt ((lookupA "debug" tags₁).getD false)
      ((lookupA "debug" tags₂).getD false) _ _).1,
    (assignLoop_debug_irrel vdt ((lookupA "debug" tags₁).getD false)
      ((lookupA "debug" tags₂).getD false) _ _).2]

/-- C10: the `debug` keyword of `set_param_values` only controls diagnostic
printing and never acts as a parameter tag: it is removed from the tag set
before any parameter, dtype or shape lookup, so for every flattened vector,
state and tag set without a `debug` key, passing `debug` (with either value)
yields exactly the same outcome and state as not passing it; only the
printed-parameters component of the result can differ. -/
theorem c10_debug_only_printing (vdt : Param → TfDtype) (gpi : Tags → List Param)
    (st : RState) (flat : List Int) (nm : Option String) (tags : Tags) (b : Bool)
    (hdbg : lookupA "debug" tags = none) :
    (set_param_values vdt gpi st flat nm (("debug", b) :: tags)).1 =
      (set_param_values vdt gpi st flat nm tags).1 :=
  set_param_values_fst_eq vdt gpi st flat nm _ _ (by simp [eraseKey])

theorem c10_debug_only_printing_witness :
    lookupA "debug" ([("trainable", true)] : Tags) = none ∧
    (set_param_values vdt0 gpi0 st0 [5, 6, 7] none
        [("debug", true), ("trainable", true)]).1 =
      (set_param_values vdt0 gpi0 st0 [5, 6, 7] none [("trainable", true)]).1 :=
  ⟨rfl, c10_debug_only_printing vdt0 gpi0 st0 [5, 6, 7] none
    [("trainable", true)] true rfl⟩

/-! ## C5: assignment op and placeholder caching -/

theorem assignLoop_ops_preserved (vdt : Param → TfDtype) (debug : Bool) :
    ∀ (l : List ((Param × NpDtype) × (Shape × List Int))) (st : RState)
      (p : Param) (op : Nat),
      lookupA p st.cachedAssignOps = some op →
      lookupA p ((assignLoop vdt debug l st).1).cachedAssignOps = some op := by
  intro l
  induction l with
  | nil => intro st p op h; exact h
  | cons x rest ih =>
      obtain ⟨⟨q, dt⟩, v⟩ := x
      intro st p op h
      simp only [assignLoop]
      by_cases hg : (lookupA q st.cachedAssignOps).isNone
      · simp only [hg, if_true]
        apply ih
        show lookupA p ((q, st.nextNode + 1) :: st.cachedAssignOps) = some op
        have hpq : p ≠ q := by
          intro he
          rw [← he] at hg
          rw [h] at hg
          simp at hg
        rw [lookupA_cons]
        simp [hpq, h]
      · simp only [hg, if_false]
        exact ih st p op h

theorem assignLoop_ph_preserved (vdt : Param → TfDtype) (debug : Bool) :
    ∀ (l : List ((Param × NpDtype) × (Shape × List Int))) (st : RState),
      (∀ q : Param, (lookupA q st.cachedAssignOps).isNone =
        (lookupA q st.cachedAssignPlaceholders).isNone) →
      ∀ (p : Param) (ph : Nat × NpDtype),
        lookupA p st.cachedAssignPlaceholders = some ph →
        lookupA p ((assignLoop vdt debug l st).1).cachedAssignPlaceholders = some ph := by
  intro l
  induction l with
  | nil => intro st _ p ph h; exact h
  | cons x rest ih =>
      obtain ⟨⟨q, dt⟩, v⟩ := x
      intro st halign p ph h
      simp only [assignLoop]
      by_cases hg : (lookupA q st.cachedAssignOps).isNone
      · simp only [hg, if_true]
        have hqph : (lookupA q st.cachedAssignPlaceholders).isNone = true := by
          rw [← halign q]
          exact hg
        have hpq : p ≠ q := by
          intro he
          rw [← he] at hqph
          rw [h] at hqph
          simp at hqph
        apply ih
        · intro r
          show (lookupA r ((q, st.nextNode + 1) :: st.cachedAssignOps)).isNone =
            (lookupA r ((q, (st.nextNode, (vdt q).base))
              :: st.cachedAssignPlaceholders)).isNone
          rw [lookupA_cons, lookupA_cons]
          by_cases hr : r = q
          · simp [hr]
          · simp only [hr, if_false]
            exact halign r
        · show lookupA p ((q, (st.nextNode, (vdt q).base))
            :: st.cachedAssignPlaceholders) = some ph
          rw [lookupA_cons]
          simp [hpq, h]
      · simp only [hg, if_false]
        exact ih st halign p ph h

theorem assignLoop_ph_new (vdt : Param → TfDtype) (debug : Bool) :
    ∀ (l : List ((Param × NpDtype) × (Shape × List Int))) (st : RState)
      (p : Param) (ph : Nat × NpDtype),
      lookupA p ((assignLoop vdt debug l st).1).cachedAssignPlaceholders = some ph →
      lookupA p st.cachedAssignPlaceholders = some ph ∨ ph.2 = (vdt p).base := by
  intro l
  induction l with
  | nil => intro st p ph h; exact Or.inl h
  | cons x rest ih =>
      obtain ⟨⟨q, dt⟩, v⟩ := x
      intro st p ph h
      simp only [assignLoop] at h
      by_cases hg : (lookupA q st.cachedAssignOps).isNone
      · simp only [hg, if_true] at h
        rcases ih _ p ph h with hin | hbase
        · have hin₂ : lookupA p ((q, (st.nextNode, (vdt q).base))
              :: st.cachedAssignPlaceholders) = some ph := hin
          rw [lookupA_cons] at hin₂
          by_cases hpq : p = q
          · simp only [hpq, if_true, Option.some.injEq] at hin₂
            right
            rw [← hin₂, hpq]
          · simp only [hpq, if_false] at hin₂
            exact Or.inl hin₂
        · exact Or.inr hbase
      · simp only [hg, if_false] at h
        exact ih st p ph h

theorem assignLoop_covers (vdt : Param → TfDtype) (debug : Bool) :
    ∀ (l : List ((Param × NpDtype) × (Shape × List Int))) (st : RState),
      ∀ x ∈ l, (lookupA x.1.1 ((assignLoop vdt debug l st).1).cachedAssignOps).isSome := by
  intro l
  induction l with
  | nil => intro st x hx; cases hx
  | cons y rest ih =>
      obtain ⟨⟨q, dt⟩, v⟩ := y
      intro st x hx
      simp only [assignLoop]
      rcases List.mem_cons.mp hx with rfl | hx₂
      · by_cases hg : (lookupA q st.cachedAssignOps).isNone
        · simp only [hg, if_true]
          have hcached : lookupA q ((q, st.nextNode + 1) :: st.cachedAssignOps) =
              some (st.nextNode + 1) := lookupA_cons_self _ _ _
          have := assignLoop_ops_preserved vdt debug rest
            { st with
                cachedAssignPlaceholders :=
                  (q, (st.nextNode, (vdt q).base)) :: st.cachedAssignPlaceholders
                cachedAssignOps := (q, st.nextNode + 1) :: st.cachedAssignOps
                nextNode := st.nextNode + 2 } q (st.nextNode + 1) hcached
          simp [this]
        · simp only [hg, if_false]
          obtain ⟨op, hop⟩ : ∃ op, lookupA q st.cachedAssignOps = some op := by
            cases hqq : lookupA q st.cachedAssignOps with
            | none => rw [hqq] at hg; simp at hg
            | some o => exact ⟨o, rfl⟩
          have := assignLoop_ops_preserved vdt debug rest st q op hop
          simp [this]
      · by_cases hg : (lookupA q st.cachedAssignOps).isNone
        · simp only [hg, if_true]
          exact ih _ x hx₂
        · simp only [hg, if_false]
          exact ih st x hx₂

theorem assignLoop_all_cached (vdt : Param → TfDtype) (debug : Bool) :
    ∀ (l : List ((Param × NpDtype) × (Shape × List Int))) (st : RState),
      (∀ x ∈ l, (lookupA x.1.1 st.cachedAssignOps).isSome) →
      ((assignLoop vdt debug l st).1) = st := by
  intro l
  induction l with
  | nil => intro st _; rfl
  | cons y rest ih =>
      obtain ⟨⟨q, dt⟩, v⟩ := y
      intro st hall
      simp only [assignLoop]
      have hq := hall _ (List.mem_cons_self _ _)
      have hg : ¬ (lookupA q st.cachedAssignOps).isNone := by
        cases hqq : lookupA q st.cachedAssignOps with
        | none => rw [hqq] at hq; simp at hq
        | some o => simp [hqq]
      simp only [hg, if_false]
      exact ih st (fun x hx => hall x (List.mem_cons_of_mem _ hx))

theorem assignLoop_paramsCache (vdt : Param → TfDtype) (debug : Bool) :
    ∀ (l : List ((Param × NpDtype) × (Shape × List Int))) (st : RState),
      ((assignLoop vdt debug l st).1).cachedParams = st.cachedParams
  | [], _ => rfl
  | ((p, dt), v) :: rest, st => by
      simp only [assignLoop]
      rw [assignLoop_paramsCache vdt debug rest]
      split <;> rfl

theorem assignLoop_dtypesCache (vdt : Param → TfDtype) (debug : Bool) :
    ∀ (l : List ((Param × NpDtype) × (Shape × List Int))) (st : RState),
      ((assignLoop vdt debug l st).1).cachedParamDtypes = st.cachedParamDtypes
  | [], _ => rfl
  | ((p, dt), v) :: rest, st => by
      simp only [assignLoop]
      rw [assignLoop_dtypesCache vdt debug rest]
      split <;> rfl

theorem assignLoop_shapesCache (vdt : Param → TfDtype) (debug : Bool) :
    ∀ (l : List ((Param × NpDtype) × (Shape × List Int))) (st : RState),
      ((assignLoop vdt debug l st).1).cachedParamShapes = st.cachedParamShapes
  | [], _ => rfl
  | ((p, dt), v) :: rest, st => by
      simp only [assignLoop]
      rw [assignLoop_shapesCache vdt debug rest]
      split <;> rfl

theorem get_param_shapes_assign {gpi : Tags → List Param} {st : RState}
    {tags : Tags} {s : List Shape} {st₁ : RState}
    (h : get_param_shapes gpi st tags = .ok (s, st₁)) :
    st₁.cachedAssignOps = st.cachedAssignOps ∧
    st₁.cachedAssignPlaceholders = st.cachedAssignPlaceholders ∧
    st₁.nextNode = st.nextNode := by
  simp only [get_param_shapes] at h
  cases hl : lookupA (sortTags tags) st.cachedParamShapes with
  | some ss =>
      rw [hl] at h
      simp only [Except.ok.injEq, Prod.mk.injEq] at h
      rw [← h.2]
      exact ⟨rfl, rfl, rfl⟩
  | none =>
      rw [hl] at h
      cases hsr : sessionRunRead (get_params gpi st tags).2 (get_params gpi st tags).1 with
      | error e => rw [hsr] at h; simp at h
      | ok pr₂ =>
          obtain ⟨pvs, s₂⟩ := pr₂
          rw [hsr] at h
          simp only [Except.ok.injEq, Prod.mk.injEq] at h
          rw [← h.2]
          have h₂ : s₂.cachedAssignOps = (get_params gpi st tags).2.cachedAssignOps ∧
              s₂.cachedAssignPlaceholders =
                (get_params gpi st tags).2.cachedAssignPlaceholders ∧
              s₂.nextNode = (get_params gpi st tags).2.nextNode := by
            simp only [sessionRunRead] at hsr
            cases hss : ((get_params gpi st tags).2).session with
            | none => rw [hss] at hsr; simp at hsr
            | some v =>
                rw [hss] at hsr
                simp only [Except.ok.injEq, Prod.mk.injEq] at hsr
                rw [← hsr.2]
                exact ⟨rfl, rfl, rfl⟩
          refine ⟨?_, ?_, ?_⟩
          · show s₂.cachedAssignOps = st.cachedAssignOps
            rw [h₂.1, get_params_assignOps]
          · show s₂.cachedAssignPlaceholders = st.cachedAssignPlaceholders
            rw [h₂.2.1, get_params_assignPlaceholders]
          · show s₂.nextNode = st.nextNode
            rw [h₂.2.2, get_params_nextNode]

theorem get_param_dtypes_assign {gpi : Tags → List Param} {st : RState}
    {tags : Tags} {d : List NpDtype} {st₁ : RState}
    (h : get_param_dtypes gpi st tags = .ok (d, st₁)) :
    st₁.cachedAssignOps = st.cachedAssignOps ∧
    st₁.cachedAssignPlaceholders = st.cachedAssignPlaceholders ∧
    st₁.nextNode = st.nextNode := by
  simp only [get_param_dtypes] at h
  cases hl : lookupA (sortTags tags) st.cachedParamDtypes with
  | some ds =>
      rw [hl] at h
      simp only [Except.ok.injEq, Prod.mk.injEq] at h
      rw [← h.2]
      exact ⟨rfl, rfl, rfl⟩
  | none =>
      rw [hl] at h
      cases hsr : sessionRunRead (get_params gpi st tags).2 (get_params gpi st tags).1 with
      | error e => rw [hsr] at h; simp at h
      | ok pr₂ =>
          obtain ⟨pvs, s₂⟩ := pr₂
          rw [hsr] at h
          simp only [Except.ok.injEq, Prod.mk.injEq] at h
          rw [← h.2]
          have h₂ : s₂.cachedAssignOps = (get_params gpi st tags).2.cachedAssignOps ∧
              s₂.cachedAssignPlaceholders =
                (get_params gpi st tags).2.cachedAssignPlaceholders ∧
              s₂.nextNode = (get_params gpi st tags).2.nextNode := by
            simp only [sessionRunRead] at hsr
            cases hss : ((get_params gpi st tags).2).session with
            | none => rw [hss] at hsr; simp at hsr
            | some v =>
                rw [hss] at hsr
                simp only [Except.ok.injEq, Prod.mk.injEq] at hsr
                rw [← hsr.2]
                exact ⟨rfl, rfl, rfl⟩
          refine ⟨?_, ?_, ?_⟩
          · show s₂.cachedAssignOps = st.cachedAssignOps
            rw [h₂.1, get_params_assignOps]
          · show s₂.cachedAssignPlaceholders = st.cachedAssignPlaceholders
            rw [h₂.2.1, get_params_assignPlaceholders]
          · show s₂.nextNode = st.nextNode
            rw [h₂.2.2, get_params_nextNode]

theorem get_param_dtypes_shapesCache {gpi : Tags → List Param} {st : RState}
    {tags : Tags} {d : List NpDtype} {st₁ : RState}
    (h : get_param_dtypes gpi st tags = .ok (d, st₁)) :
    st₁.cachedParamShapes = st.cachedParamShapes := by
  simp only [get_param_dtypes] at h
  cases hl : lookupA (sortTags tags) st.cachedParamDtypes with
  | some ds =>
      rw [hl] at h
      simp only [Except.ok.injEq, Prod.mk.injEq] at h
      rw [← h.2]
  | none =>
      rw [hl] at h
      cases hsr : sessionRunRead (get_params gpi st tags).2 (get_params gpi st tags).1 with
      | error e => rw [hsr] at h; simp at h
      | ok pr₂ =>
          obtain ⟨pvs, s₂⟩ := pr₂
          rw [hsr] at h
          simp only [Except.ok.injEq, Prod.mk.injEq] at h
          rw [← h.2]
          show s₂.cachedParamShapes = st.cachedParamShapes
          have h₂ : s₂.cachedParamShapes = (get_params gpi st tags).2.cachedParamShapes := by
            simp only [sessionRunRead] at hsr
            cases hss : ((get_params gpi st tags).2).session with
            | none => rw [hss] at hsr; simp at hsr
            | some v =>
                rw [hss] at hsr
                simp only [Except.ok.injEq, Prod.mk.injEq] at hsr
                rw [← hsr.2]
          rw [h₂, get_params_shapesCache]

theorem get_param_dtypes_paramsCache {gpi : Tags → List Param} {st : RState}
    {tags : Tags} {d : List NpDtype} {st₁ : RState} {ps : List Param}
    (h : get_param_dtypes gpi st tags = .ok (d, st₁))
    (hc : lookupA (sortTags tags) st.cachedParams = some ps) :
    lookupA (sortTags tags) st₁.cachedParams = some ps := by
  simp only [get_param_dtypes] at h
  cases hl : lookupA (sortTags tags) st.cachedParamDtypes with
  | some ds =>
      rw [hl] at h
      simp only [Except.ok.injEq, Prod.mk.injEq] at h
      rw [← h.2]
      exact hc
  | none =>
      rw [hl] at h
      rw [get_params_hit hc] at h
      simp only [] at h
      cases hss : st.session with
      | none => rw [sessionRunRead_none hss] at h; simp at h
      | some v =>
          rw [sessionRunRead_some hss] at h
          simp only [Except.ok.injEq, Prod.mk.injEq] at h
          rw [← h.2]
          exact hc

/-- C5: `set_param_values` creates at most one assignment operation and one
placeholder per distinct parameter over the object's lifetime, keyed by
parameter identity: existing cache entries are never overwritten, every
placeholder entry it adds carries the parameter's base dtype, and repeating
the call reuses the cached operations and placeholders instead of creating
new graph nodes (the node counter and both assignment caches are unchanged).
The alignment hypothesis states that the two assignment caches hold entries
for exactly the same parameters, which is how every reachable state is built
since both caches are always written together. -/
theorem c5_assign_cache (vdt : Param → TfDtype) (gpi : Tags → List Param)
    (st : RState) (flat : List Int) (nm : Option String) (tags : Tags)
    (st' : RState)
    (halign : ∀ q : Param, (lookupA q st.cachedAssignOps).isNone =
      (lookupA q st.cachedAssignPlaceholders).isNone)
    (h : (set_param_values vdt gpi st flat nm tags).1 = .ok ((), st')) :
    (∀ p op, lookupA p st.cachedAssignOps = some op →
      lookupA p st'.cachedAssignOps = some op) ∧
    (∀ p ph, lookupA p st.cachedAssignPlaceholders = some ph →
      lookupA p st'.cachedAssignPlaceholders = some ph) ∧
    (∀ p ph, lookupA p st'.cachedAssignPlaceholders = some ph →
      lookupA p st.cachedAssignPlaceholders = some ph ∨ ph.2 = (vdt p).base) ∧
    (∃ st'', (set_param_values vdt gpi st' flat nm tags).1 = .ok ((), st'') ∧
      st''.nextNode = st'.nextNode ∧
      st''.cachedAssignOps = st'.cachedAssignOps ∧
      st''.cachedAssignPlaceholders = st'.cachedAssignPlaceholders) := by
  simp only [set_param_values] at h
  split at h
  · simp at h
  rename_i shapes st₁ hS
  split at h
  · simp at h
  rename_i values hU
  obtain ⟨ps, st₂, hP⟩ : ∃ ps st₂,
      get_params gpi st₁ (eraseKey "debug" tags) = (ps, st₂) := ⟨_, _, rfl⟩
  rw [hP] at h
  simp only [] at h
  split at h
  · simp at h
  rename_i dtypes st₃ hD
  simp only [] at h
  cases hsl : ((assignLoop vdt ((lookupA "debug" tags).getD false)
      ((ps.zip dtypes).zip values) st₃).1).session with
  | none => rw [sessionRunAssign_none hsl] at h; simp at h
  | some v =>
      rw [sessionRunAssign_some hsl] at h
      injection h with h₂
      injection h₂ with h₃ hrec
      -- cache chains from st down to the loop entry state st₃
      obtain ⟨hSo, hSp, hSn⟩ := get_param_shapes_assign hS
      obtain ⟨hDo, hDp, hDn⟩ := get_param_dtypes_assign hD
      have hP2o : st₂.cachedAssignOps = st₁.cachedAssignOps := by
        have := get_params_assignOps gpi st₁ (eraseKey "debug" tags)
        rwa [hP] at this
      have hP2p : st₂.cachedAssignPlaceholders = st₁.cachedAssignPlaceholders := by
        have := get_params_assignPlaceholders gpi st₁ (eraseKey "debug" tags)
        rwa [hP] at this
      have hops₃ : st₃.cachedAssignOps = st.cachedAssignOps := by
        rw [hDo, hP2o, hSo]
      have hph₃ : st₃.cachedAssignPlaceholders = st.cachedAssignPlaceholders := by
        rw [hDp, hP2p, hSp]
      refine ⟨?_, ?_, ?_, ?_⟩
      · intro p op hp
        rw [← hrec]
        exact assignLoop_ops_preserved vdt _ _ st₃ p op (by rw [hops₃]; exact hp)
      · intro p ph hp
        rw [← hrec]
        refine assignLoop_ph_preserved vdt _ _ st₃ ?_ p ph (by rw [hph₃]; exact hp)
        intro q
        rw [hops₃, hph₃]
        exact halign q
      · intro p ph hp
        rw [← hrec] at hp
        rcases assignLoop_ph_new vdt _ _ st₃ p ph hp with hin | hb
        · left
          rw [hph₃] at hin
          exact hin
        · right
          exact hb
      · -- the repeated call: every lookup is a cache hit, the loop creates
        -- nothing because every parameter of the zip is already cached
        have hshc : lookupA (sortTags (eraseKey "debug" tags))
            st'.cachedParamShapes = some shapes := by
          rw [← hrec]
          show lookupA (sortTags (eraseKey "debug" tags))
            ((assignLoop vdt ((lookupA "debug" tags).getD false)
              ((ps.zip dtypes).zip values) st₃).1).cachedParamShapes = some shapes
          rw [assignLoop_shapesCache, get_param_dtypes_shapesCache hD]
          have hsc₂ : st₂.cachedParamShapes = st₁.cachedParamShapes := by
            have := get_params_shapesCache gpi st₁ (eraseKey "debug" tags)
            rwa [hP] at this
          rw [hsc₂]
          exact get_param_shapes_cached hS
        have hppc : lookupA (sortTags (eraseKey "debug" tags))
            st'.cachedParams = some ps := by
          rw [← hrec]
          show lookupA (sortTags (eraseKey "debug" tags))
            ((assignLoop vdt ((lookupA "debug" tags).getD false)
              ((ps.zip dtypes).zip values) st₃).1).cachedParams = some ps
          rw [assignLoop_paramsCache]
          refine get_param_dtypes_paramsCache hD ?_
          have := get_params_cached gpi st₁ (eraseKey "debug" tags)
          rwa [hP] at this
        have hddc : lookupA (sortTags (eraseKey "debug" tags))
            st'.cachedParamDtypes = some dtypes := by
          rw [← hrec]
          show lookupA (sortTags (eraseKey "debug" tags))
            ((assignLoop vdt ((lookupA "debug" tags).getD false)
              ((ps.zip dtypes).zip values) st₃).1).cachedParamDtypes = some dtypes
          rw [assignLoop_dtypesCache]
          exact get_param_dtypes_cached hD
        have hS2 := @get_param_shapes_hit gpi _ _ _ hshc
        have hit2 := @get_params_hit gpi _ _ _ hppc
        have hD2 := @get_param_dtypes_hit gpi _ _ _ hddc
        have hcov : ∀ x ∈ (ps.zip dtypes).zip values,
            (lookupA x.1.1 st'.cachedAssignOps).isSome := by
          intro x hx
          rw [← hrec]
          exact assignLoop_covers vdt _ _ st₃ x hx
        have hsess2 : st'.session =
            some (((assignLoop vdt ((lookupA "debug" tags).getD false)
              ((ps.zip dtypes).zip values) st₃).2.1).foldl
                (fun f pa => Function.update f pa.1 pa.2) v) := by
          rw [← hrec]
        simp only [set_param_values, hS2, hU, hit2, hD2]
        rw [assignLoop_all_cached vdt _ _ st' hcov]
        rw [sessionRunAssign_some hsess2]
        exact ⟨_, rfl, rfl, rfl, rfl⟩

theorem c5_assign_cache_witness :
    (∀ q : Param, (lookupA q st0.cachedAssignOps).isNone =
      (lookupA q st0.cachedAssignPlaceholders).isNone) ∧
    ∃ st', (set_param_values vdt0 gpi0 st0 [5, 6, 7] none []).1 = .ok ((), st') ∧
      ((∀ p op, lookupA p st0.cachedAssignOps = some op →
        lookupA p st'.cachedAssignOps = some op) ∧
      (∀ p ph, lookupA p st0.cachedAssignPlaceholders = some ph →
        lookupA p st'.cachedAssignPlaceholders = some ph) ∧
      (∀ p ph, lookupA p st'.cachedAssignPlaceholders = some ph →
        lookupA p st0.cachedAssignPlaceholders = some ph ∨ ph.2 = (vdt0 p).base) ∧
      (∃ st'', (set_param_values vdt0 gpi0 st' [5, 6, 7] none []).1 = .ok ((), st'') ∧
        st''.nextNode = st'.nextNode ∧
        st''.cachedAssignOps = st'.cachedAssignOps ∧
        st''.cachedAssignPlaceholders = st'.cachedAssignPlaceholders)) :=
  ⟨fun q => rfl, _, rfl,
    c5_assign_cache vdt0 gpi0 st0 [5, 6, 7] none [] _ (fun q => rfl) rfl⟩

/-! ## C4: cache persistence across every operation -/

theorem lookupA_mono_cons {κ β : Type} [DecidableEq κ] {k t : κ} {v : β}
    {l : List (κ × β)} {x : β} (hne : lookupA k l = none)
    (h : lookupA t l = some x) : lookupA t ((k, v) :: l) = some x := by
  rw [lookupA_cons]
  have hkt : t ≠ k := by
    intro he
    rw [he, hne] at h
    simp at h
  simp [hkt, h]

/-- `get_params` never removes a parameter-cache entry. -/
theorem get_params_mono (gpi : Tags → List Param) (st : RState) (tags : Tags)
    (t : Tags) (ps : List Param) (h : lookupA t st.cachedParams = some ps) :
    lookupA t ((get_params gpi st tags).2).cachedParams = some ps := by
  simp only [get_params]
  cases hl : lookupA (sortTags tags) st.cachedParams with
  | some ps₂ => exact h
  | none =>
      show lookupA t ((sortTags tags, gpi tags) :: st.cachedParams) = some ps
      exact lookupA_mono_cons hl h

/-- `get_param_shapes` never touches the dtype cache. -/
theorem get_param_shapes_dtypesCache {gpi : Tags → List Param} {st : RState}
    {tags : Tags} {s : List Shape} {st₁ : RState}
    (h : get_param_shapes gpi st tags = .ok (s, st₁)) :
    st₁.cachedParamDtypes = st.cachedParamDtypes := by
  simp only [get_param_shapes] at h
  cases hl : lookupA (sortTags tags) st.cachedParamShapes with
  | some ss =>
      rw [hl] at h
      simp only [Except.ok.injEq, Prod.mk.injEq] at h
      rw [← h.2]
  | none =>
      rw [hl] at h
      cases hsr : sessionRunRead (get_params gpi st tags).2 (get_params gpi st tags).1 with
      | error e => rw [hsr] at h; simp at h
      | ok pr₂ =>
          obtain ⟨pvs, s₂⟩ := pr₂
          rw [hsr] at h
          simp only [Except.ok.injEq, Prod.mk.injEq] at h
          rw [← h.2]
          show s₂.cachedParamDtypes = st.cachedParamDtypes
          have h₂ : s₂.cachedParamDtypes = (get_params gpi st tags).2.cachedParamDtypes := by
            simp only [sessionRunRead] at hsr
            cases hss : ((get_params gpi st tags).2).session with
            | none => rw [hss] at hsr; simp at hsr
            | some v =>
                rw [hss] at hsr
                simp only [Except.ok.injEq, Prod.mk.injEq] at hsr
                rw [← hsr.2]
          rw [h₂, get_params_dtypesCache]

/-- A successful `get_param_dtypes` call never removes a dtype-cache or a
parameter-cache entry. -/
theorem get_param_dtypes_mono {gpi : Tags → List Param} {st : RState}
    {tags : Tags} {d : List NpDtype} {st₁ : RState}
    (h : get_param_dtypes gpi st tags = .ok (d, st₁)) :
    (∀ t ds, lookupA t st.cachedParamDtypes = some ds →
      lookupA t st₁.cachedParamDtypes = some ds) ∧
    (∀ t ps, lookupA t st.cachedParams = some ps →
      lookupA t st₁.cachedParams = some ps) := by
  simp only [get_param_dtypes] at h
  cases hl : lookupA (sortTags tags) st.cachedParamDtypes with
  | some ds₂ =>
      rw [hl] at h
      simp only [Except.ok.injEq, Prod.mk.injEq] at h
      rw [← h.2]
      exact ⟨fun t ds hh => hh, fun t ps hh => hh⟩
  | none =>
      rw [hl] at h
      cases hsr : sessionRunRead (get_params gpi st tags).2 (get_params gpi st tags).1 with
      | error e => rw [hsr] at h; simp at h
      | ok pr₂ =>
          obtain ⟨pvs, s₂⟩ := pr₂
          rw [hsr] at h
          simp only [Except.ok.injEq, Prod.mk.injEq] at h
          rw [← h.2]
          have hcaches : s₂.cachedParamDtypes =
              (get_params gpi st tags).2.cachedParamDtypes ∧
              s₂.cachedParams = (get_params gpi st tags).2.cachedParams := by
            simp only [sessionRunRead] at hsr
            cases hss : ((get_params gpi st tags).2).session with
            | none => rw [hss] at hsr; simp at hsr
            | some v =>
                rw [hss] at hsr
                simp only [Except.ok.injEq, Prod.mk.injEq] at hsr
                rw [← hsr.2]
                exact ⟨rfl, rfl⟩
          constructor
          · intro t ds hh
            show lookupA t ((sortTags tags, pvs.map NpArr.dtype)
              :: s₂.cachedParamDtypes) = some ds
            have hnone : lookupA (sortTags tags) s₂.cachedParamDtypes = none := by
              rw [hcaches.1, get_params_dtypesCache]
              exact hl
            refine lookupA_mono_cons hnone ?_
            rw [hcaches.1, get_params_dtypesCache]
            exact hh
          · intro t ps hh
            show lookupA t s₂.cachedParams = some ps
            rw [hcaches.2]
            exact get_params_mono gpi st tags t ps hh

/-- A successful `get_param_shapes` call never removes a shape-cache or a
parameter-cache entry. -/
theorem get_param_shapes_mono {gpi : Tags → List Param} {st : RState}
    {tags : Tags} {s : List Shape} {st₁ : RState}
    (h : get_param_shapes gpi st tags = .ok (s, st₁)) :
    (∀ t ss, lookupA t st.cachedParamShapes = some ss →
      lookupA t st₁.cachedParamShapes = some ss) ∧
    (∀ t ps, lookupA t st.cachedParams = some ps →
      lookupA t st₁.cachedParams = some ps) := by
  simp only [get_param_shapes] at h
  cases hl : lookupA (sortTags tags) st.cachedParamShapes with
  | some ss₂ =>
      rw [hl] at h
      simp only [Except.ok.injEq, Prod.mk.injEq] at h
      rw [← h.2]
      exact ⟨fun t ss hh => hh, fun t ps hh => hh⟩
  | none =>
      rw [hl] at h
      cases hsr : sessionRunRead (get_params gpi st tags).2 (get_params gpi st tags).1 with
      | error e => rw [hsr] at h; simp at h
      | ok pr₂ =>
          obtain ⟨pvs, s₂⟩ := pr₂
          rw [hsr] at h
          simp only [Except.ok.injEq, Prod.mk.injEq] at h
          rw [← h.2]
          have hcaches : s₂.cachedParamShapes =
              (get_params gpi st tags).2.cachedParamShapes ∧
              s₂.cachedParams = (get_params gpi st tags).2.cachedParams := by
            simp only [sessionRunRead] at hsr
            cases hss : ((get_params gpi st tags).2).session with
            | none => rw [hss] at hsr; simp at hsr
            | some v =>
                rw [hss] at hsr
                simp only [Except.ok.injEq, Prod.mk.injEq] at hsr
                rw [← hsr.2]
                exact ⟨rfl, rfl⟩
          constructor
          · intro t ss hh
            show lookupA t ((sortTags tags, pvs.map NpArr.shape)
              :: s₂.cachedParamShapes) = some ss
            have hnone : lookupA (sortTags tags) s₂.cachedParamShapes = none := by
              rw [hcaches.1, get_params_shapesCache]
              exact hl
            refine lookupA_mono_cons hnone ?_
            rw [hcaches.1, get_params_shapesCache]
            exact hh
          · intro t ps hh
            show lookupA t s₂.cachedParams = some ps
            rw [hcaches.2]
            exact get_params_mono gpi st tags t ps hh

/-- A successful `get_param_values` call never removes a parameter-cache
entry and leaves the dtype and shape caches untouched. -/
theorem get_param_values_mono {gpi : Tags → List Param} {st : RState}
    {tags : Tags} {v : List Int} {st₁ : RState}
    (h : get_param_values gpi st tags = .ok (v, st₁)) :
    (∀ t ps, lookupA t st.cachedParams = some ps →
      lookupA t st₁.cachedParams = some ps) ∧
    st₁.cachedParamDtypes = st.cachedParamDtypes ∧
    st₁.cachedParamShapes = st.cachedParamShapes := by
  simp only [get_param_values] at h
  cases hsr : sessionRunRead (get_params gpi st tags).2 (get_params gpi st tags).1 with
  | error e => rw [hsr] at h; simp at h
  | ok pr₂ =>
      obtain ⟨pvs, s₂⟩ := pr₂
      rw [hsr] at h
      simp only [Except.ok.injEq, Prod.mk.injEq] at h
      rw [← h.2]
      have hcaches : s₂.cachedParams = (get_params gpi st tags).2.cachedParams ∧
          s₂.cachedParamDtypes = (get_params gpi st tags).2.cachedParamDtypes ∧
          s₂.cachedParamShapes = (get_params gpi st tags).2.cachedParamShapes := by
        simp only [sessionRunRead] at hsr
        cases hss : ((get_params gpi st tags).2).session with
        | none => rw [hss] at hsr; simp at hsr
        | some v₂ =>
            rw [hss] at hsr
            simp only [Except.ok.injEq, Prod.mk.injEq] at hsr
            rw [← hsr.2]
            exact ⟨rfl, rfl, rfl⟩
      refine ⟨?_, ?_, ?_⟩
      · intro t ps hh
        show lookupA t s₂.cachedParams = some ps
        rw [hcaches.1]
        exact get_params_mono gpi st tags t ps hh
      · show s₂.cachedParamDtypes = st.cachedParamDtypes
        rw [hcaches.2.1, get_params_dtypesCache]
      · show s₂.cachedParamShapes = st.cachedParamShapes
        rw [hcaches.2.2, get_params_shapesCache]

/-- A successful `set_param_values` call never removes a parameter-cache,
dtype-cache or shape-cache entry. -/
theorem set_param_values_mono {vdt : Param → TfDtype} {gpi : Tags → List Param}
    {st : RState} {flat : List Int} {nm : Option String} {tags : Tags}
    {u : Unit} {st₁ : RState}
    (h : (set_param_values vdt gpi st flat nm tags).1 = .ok (u, st₁)) :
    (∀ t ps, lookupA t st.cachedParams = some ps →
      lookupA t st₁.cachedParams = some ps) ∧
    (∀ t ds, lookupA t st.cachedParamDtypes = some ds →
      lookupA t st₁.cachedParamDtypes = some ds) ∧
    (∀ t ss, lookupA t st.cachedParamShapes = some ss →
      lookupA t st₁.cachedParamShapes = some ss) := by
  simp only [set_param_values] at h
  split at h
  · simp at h
  rename_i shapes stS hS
  split at h
  · simp at h
  rename_i values hU
  obtain ⟨ps, st₂, hP⟩ : ∃ ps st₂,
      get_params gpi stS (eraseKey "debug" tags) = (ps, st₂) := ⟨_, _, rfl⟩
  rw [hP] at h
  simp only [] at h
  split at h
  · simp at h
  rename_i dtypes st₃ hD
  simp only [] at h
  cases hsl : ((assignLoop vdt ((lookupA "debug" tags).getD false)
      ((ps.zip dtypes).zip values) st₃).1).session with
  | none => rw [sessionRunAssign_none hsl] at h; simp at h
  | some v =>
      rw [sessionRunAssign_some hsl] at h
      injection h with h₂
      injection h₂ with h₃ hrec
      refine ⟨?_, ?_, ?_⟩
      · intro t ps₂ hh
        rw [← hrec]
        show lookupA t ((assignLoop vdt ((lookupA "debug" tags).getD false)
          ((ps.zip dtypes).zip values) st₃).1).cachedParams = some ps₂
        rw [assignLoop_paramsCache]
        refine (get_param_dtypes_mono hD).2 t ps₂ ?_
        have hstep := get_params_mono gpi stS (eraseKey "debug" tags) t ps₂
          ((get_param_shapes_mono hS).2 t ps₂ hh)
        rwa [hP] at hstep
      · intro t ds₂ hh
        rw [← hrec]
        show lookupA t ((assignLoop vdt ((lookupA "debug" tags).getD false)
          ((ps.zip dtypes).zip values) st₃).1).cachedParamDtypes = some ds₂
        rw [assignLoop_dtypesCache]
        refine (get_param_dtypes_mono hD).1 t ds₂ ?_
        have hstep : st₂.cachedParamDtypes = stS.cachedParamDtypes := by
          have := get_params_dtypesCache gpi stS (eraseKey "debug" tags)
          rwa [hP] at this
        rw [hstep, get_param_shapes_dtypesCache hS]
        exact hh
      · intro t ss₂ hh
        rw [← hrec]
        show lookupA t ((assignLoop vdt ((lookupA "debug" tags).getD false)
          ((ps.zip dtypes).zip values) st₃).1).cachedParamShapes = some ss₂
        rw [assignLoop_shapesCache, get_param_dtypes_shapesCache hD]
        have hstep : st₂.cachedParamShapes = stS.cachedParamShapes := by
          have := get_params_shapesCache gpi stS (eraseKey "debug" tags)
          rwa [hP] at this
        rw [hstep]
        exact (get_param_shapes_mono hS).1 t ss₂ hh

/-- C4 (amended): the derived caches are purely derived but are never
invalidated during the object's lifetime. A call whose tag tuple is already
cached returns the cached entry with the state unchanged, for `get_params`,
`get_param_dtypes` and `get_param_shapes` alike, no matter what the current
`get_params_internal` returns, so the result can be stale; a parameter-cache
miss consults the current `get_params_internal`. No operation ever removes a
cache entry: every entry survives `get_params`, `get_param_dtypes`,
`get_param_shapes`, `get_param_values` and `set_param_values`. The caches are
reset to empty, and therefore rebuilt afterwards, only by `__setstate__`
during deserialization, which clears all five. -/
theorem c4_caches_persist (gpi₂ : Tags → List Param) (vdt : Param → TfDtype)
    (st : RState) (tags : Tags) :
    (∀ ps, lookupA (sortTags tags) st.cachedParams = some ps →
      get_params gpi₂ st tags = (ps, st)) ∧
    (∀ ds, lookupA (sortTags tags) st.cachedParamDtypes = some ds →
      get_param_dtypes gpi₂ st tags = .ok (ds, st)) ∧
    (∀ ss, lookupA (sortTags tags) st.cachedParamShapes = some ss →
      get_param_shapes gpi₂ st tags = .ok (ss, st)) ∧
    (lookupA (sortTags tags) st.cachedParams = none →
      (get_params gpi₂ st tags).1 = gpi₂ tags) ∧
    (∀ t ps, lookupA t st.cachedParams = some ps →
      lookupA t ((get_params gpi₂ st tags).2).cachedParams = some ps) ∧
    (∀ d st₁, get_param_dtypes gpi₂ st tags = .ok (d, st₁) →
      (∀ t ds, lookupA t st.cachedParamDtypes = some ds →
        lookupA t st₁.cachedParamDtypes = some ds) ∧
      (∀ t ps, lookupA t st.cachedParams = some ps →
        lookupA t st₁.cachedParams = some ps) ∧
      st₁.cachedParamShapes = st.cachedParamShapes) ∧
    (∀ s st₁, get_param_shapes gpi₂ st tags = .ok (s, st₁) →
      (∀ t ss, lookupA t st.cachedParamShapes = some ss →
        lookupA t st₁.cachedParamShapes = some ss) ∧
      (∀ t ps, lookupA t st.cachedParams = some ps →
        lookupA t st₁.cachedParams = some ps) ∧
      st₁.cachedParamDtypes = st.cachedParamDtypes) ∧
    (∀ v st₁, get_param_values gpi₂ st tags = .ok (v, st₁) →
      (∀ t ps, lookupA t st.cachedParams = some ps →
        lookupA t st₁.cachedParams = some ps) ∧
      st₁.cachedParamDtypes = st.cachedParamDtypes ∧
      st₁.cachedParamShapes = st.cachedParamShapes) ∧
    (∀ flat nm u st₁,
      (set_param_values vdt gpi₂ st flat nm tags).1 = .ok (u, st₁) →
      (∀ t ps, lookupA t st.cachedParams = some ps →
        lookupA t st₁.cachedParams = some ps) ∧
      (∀ t ds, lookupA t st.cachedParamDtypes = some ds →
        lookupA t st₁.cachedParamDtypes = some ds) ∧
      (∀ t ss, lookupA t st.cachedParamShapes = some ss →
        lookupA t st₁.cachedParamShapes = some ss)) ∧
    (∀ snap,
      (regressorSetstate st snap).cachedParams = [] ∧
      (regressorSetstate st snap).cachedParamDtypes = [] ∧
      (regressorSetstate st snap).cachedParamShapes = [] ∧
      (regressorSetstate st snap).cachedAssignOps = [] ∧
      (regressorSetstate st snap).cachedAssignPlaceholders = []) := by
  refine ⟨fun ps h => get_params_hit h,
    fun ds h => get_param_dtypes_hit h,
    fun ss h => get_param_shapes_hit h,
    fun h => ?_,
    fun t ps h => get_params_mono gpi₂ st tags t ps h,
    fun d st₁ h => ⟨(get_param_dtypes_mono h).1, (get_param_dtypes_mono h).2,
      get_param_dtypes_shapesCache h⟩,
    fun s st₁ h => ⟨(get_param_shapes_mono h).1, (get_param_shapes_mono h).2,
      get_param_shapes_dtypesCache h⟩,
    fun v st₁ h => get_param_values_mono h,
    fun flat nm u st₁ h => set_param_values_mono h,
    fun snap => ⟨rfl, rfl, rfl, rfl, rfl⟩⟩
  simp only [get_params]
  rw [h]

theorem c4_caches_persist_witness :
    lookupA (sortTags []) ((get_params gpiA st0 []).2).cachedParams = some [0] ∧
    get_params gpiB ((get_params gpiA st0 []).2) [] =
      ([0], (get_params gpiA st0 []).2) ∧
    get_param_dtypes gpi0 stC9 [] = .ok ([float32], stC9) :=
  ⟨rfl,
    (c4_caches_persist gpiB vdt0 ((get_params gpiA st0 []).2) []).1 [0] rfl,
    (c4_caches_persist gpi0 vdt0 stC9 []).2.1 [float32] rfl⟩
